import Mathlib

/-!
Verification of the KML codec (`src/ol/format/KML.js`) against its
natural-language specification.  The JavaScript functions are shallowly
embedded: numbers are modelled as rationals, strings as `List Char`,
JavaScript `undefined` as `Option.none`.  Regex-based micro-grammars are
embedded as deterministic scanners that implement the greedy matching
behaviour of the source regexes (all character classes involved are
disjoint, so the regex engines behave deterministically on them).
-/

namespace KMLSpec

/-! ## JavaScript primitive helpers -/

/-- Character class of the JavaScript regex `\s` restricted to its ASCII
members (space, tab, line feed, carriage return, vertical tab, form feed),
which are the whitespace characters relevant to KML documents. -/
def jsIsSpace (c : Char) : Bool :=
  c == ' ' || c == '\t' || c == '\n' || c == '\r' ||
    c == Char.ofNat 11 || c == Char.ofNat 12

/-- Value of a hexadecimal digit, `none` when the character is not one of
`[0-9A-Fa-f]` (the character class of the color regex). -/
def hexVal (c : Char) : Option ℕ :=
  if '0' ≤ c ∧ c ≤ '9' then some (c.toNat - 48)
  else if 'a' ≤ c ∧ c ≤ 'f' then some (c.toNat - 97 + 10)
  else if 'A' ≤ c ∧ c ≤ 'F' then some (c.toNat - 65 + 10)
  else none

/-- Membership in the character class `[0-9A-Fa-f]`. -/
def jsIsHexDigit (c : Char) : Bool :=
  (hexVal c).isSome

/-- Lower-case hexadecimal digits, as used by `Number.prototype.toString(16)`. -/
def jsIsLowerHexDigit (c : Char) : Bool :=
  ('0' ≤ c && c ≤ '9') || ('a' ≤ c && c ≤ 'f')

/-- Leading significant decimal digit of a positive number: the integer
part of its exponential-notation mantissa `x / 10 ^ ⌊log10 x⌋`. -/
def leadingDigit (x : ℚ) : ℤ :=
  ⌊x / (10 : ℚ) ^ Int.log 10 x⌋

/-- `parseInt(String(x), 10)` for a nonnegative number `x` (modelled as the
exact rational the JavaScript float denotes).  ECMA-262 `Number::toString`
renders `x` in decimal notation exactly when `x = 0` or
`1e-6 ≤ x < 1e21`, so `parseInt` reads the integer part (truncation);
otherwise the rendering is exponential (`d.ddd…e±k`, mantissa in
`[1, 10)`), `parseInt` stops at the decimal point or exponent letter, and
the result is the mantissa's integer part — the leading significant digit
of `x`. -/
def jsParseIntNonneg (x : ℚ) : ℤ :=
  if x = 0 then 0
  else if 1 / 1000000 ≤ x ∧ x < 10 ^ 21 then ⌊x⌋
  else leadingDigit x

/-- `parseInt(String(q), 10)` on a JavaScript number: a negative number is
rendered with a leading minus sign, which `parseInt` consumes. -/
def jsParseInt (q : ℚ) : ℤ :=
  if 0 ≤ q then jsParseIntNonneg q else -jsParseIntNonneg (-q)

/-- Digit character of `Number.prototype.toString(16)` for one hex digit. -/
def hexChar (n : ℕ) : Char :=
  ("0123456789abcdef").toList.getD n '0'

/-- Digit list of `Number.prototype.toString(16)` on a natural number; the
fuel argument bounds the recursion depth and is always sufficient when at
least the number of base-16 digits. -/
def natToHexAux : ℕ → ℕ → List Char
  | 0, _ => []
  | fuel + 1, n =>
    if n < 16 then [hexChar n]
    else natToHexAux fuel (n / 16) ++ [hexChar (n % 16)]

/-- `Number.prototype.toString(16)` on a nonnegative integer. -/
def natToHex (n : ℕ) : List Char :=
  natToHexAux (n + 1) n

/-- `Number.prototype.toString(16)` on an integer (negative values are
rendered with a leading minus sign). -/
def intToHexChars (i : ℤ) : List Char :=
  if i < 0 then '-' :: natToHex i.natAbs else natToHex i.natAbs

/-- Left-zero-padding of `writeColorTextNode`:
`(hex.length == 1) ? '0' + hex : hex`. -/
def pad2 (l : List Char) : List Char :=
  if l.length = 1 then '0' :: l else l

/-! ## Color codec

`writeColorTextNode` receives a color `[r, g, b, a]` (the `asArray`
normalisation is the identity on such arrays; the claims quantify over
length-4 colors, so the four components are explicit arguments here).  It
emits `[opacity * 255, b, g, r]`, each component passed through
`parseInt(·, 10).toString(16)` and padded to two characters. -/

/-- Embedding of `writeColorTextNode` (KML.js lines 2081-2090) on a color
`[r, g, b, a]`: each component of `[a * 255, b, g, r]` is passed through
`parseInt(·, 10).toString(16)` and left-zero-padded to two characters. -/
def writeColorTextNode (r g b a : ℚ) : List Char :=
  pad2 (intToHexChars (jsParseInt (a * 255))) ++
    pad2 (intToHexChars (jsParseInt b)) ++
    pad2 (intToHexChars (jsParseInt g)) ++
    pad2 (intToHexChars (jsParseInt r))

/-- Modelled from the spec sentence for claim C4 only (not from the code):
each component "rounded, clamped to an integer 0-255".  Used to exhibit the
divergence between the claimed and the implemented writer. -/
def writeColorRoundedClamped (r g b a : ℚ) : List Char :=
  pad2 (natToHex (max 0 (min 255 ⌊a * 255 + 1/2⌋)).toNat) ++
    pad2 (natToHex (max 0 (min 255 ⌊b + 1/2⌋)).toNat) ++
    pad2 (natToHex (max 0 (min 255 ⌊g + 1/2⌋)).toNat) ++
    pad2 (natToHex (max 0 (min 255 ⌊r + 1/2⌋)).toNat)

/-- Step `#?` of the color regex: strip one leading `#` when present. -/
def stripSigil (l : List Char) : List Char :=
  if l.head? = some '#' then l.tail else l

/-- Value of the hex digit at an index, defaulting to 0 (the default is
never reached at the call sites, which guard the digits first). -/
def hexValD (c : Char) : ℕ :=
  (hexVal c).getD 0

/-- `parseInt(hexColor.substr(i, 2), 16)`: the byte encoded at positions
`i`, `i+1` of a digit list. -/
def hexByte (l : List Char) (i : ℕ) : ℕ :=
  16 * hexValD (l.getD i '0') + hexValD (l.getD (i + 1) '0')

/-- Scan position after the `^\s*#?\s*` part of the color regex. -/
def colorTail (s : List Char) : List Char :=
  (stripSigil (s.dropWhile jsIsSpace)).dropWhile jsIsSpace

/-- The candidate digit run `([0-9A-Fa-f]{8})` of the color regex. -/
def colorHexRun (s : List Char) : List Char :=
  (colorTail s).takeWhile jsIsHexDigit

/-- The text following the digit run, which `\s*$` requires to be all
whitespace. -/
def colorRest (s : List Char) : List Char :=
  (colorTail s).dropWhile jsIsHexDigit

/-- Embedding of `readColor` (KML.js lines 489-506): match
`^\s*#?\s*([0-9A-Fa-f]{8})\s*$` and interpret the eight digits in
alpha, blue, green, red byte order, returning `[r, g, b, a/255]`.
All character classes of the regex are disjoint, so the scanner is the
regex's (unique) match.  Non-matching text yields `none`, never an
error. -/
def readColor (s : List Char) : Option (List ℚ) :=
  if (colorHexRun s).length = 8 ∧ (colorRest s).all jsIsSpace then
    some [(hexByte (colorHexRun s) 6 : ℚ), (hexByte (colorHexRun s) 4 : ℚ),
      (hexByte (colorHexRun s) 2 : ℚ), (hexByte (colorHexRun s) 0 : ℚ) / 255]
  else none

/-- Claim C5's characterisation of the texts accepted by `readColor`:
eight hexadecimal digits, an optional leading `#`, and optional
whitespace surrounding the token (on either side of the sigil). -/
def IsColorText (s : List Char) : Prop :=
  ∃ w1 sh w2 h w3 : List Char,
    s = w1 ++ sh ++ w2 ++ h ++ w3 ∧
    (∀ c ∈ w1, jsIsSpace c) ∧
    (sh = [] ∨ sh = ['#']) ∧
    (∀ c ∈ w2, jsIsSpace c) ∧
    h.length = 8 ∧ (∀ c ∈ h, jsIsHexDigit c) ∧
    (∀ c ∈ w3, jsIsSpace c)

/-! ## Coordinate micro-grammar

`readFlatCoordinates` repeatedly matches the anchored tuple regex
`^\s*(num)\s*,\s*(num)(?:\s*,\s*(num))?\s*` with
`num = [+\-]?\d*\.?\d+(?:e[+\-]?\d+)?` (case-insensitive `e`) against the
remaining text, consuming each match.  The scanners below implement the
greedy matching of these regexes; the character classes of adjacent parts
are disjoint (digits, dot, comma, whitespace, sign, exponent letter), and a
shorter numeral match is always followed by a digit, dot or exponent
character, never by the comma the tuple regex requires next, so greedy
scanning without backtracking is faithful. -/

/-- Numeric value of a digit string (the integer part of `parseFloat`). -/
def digitsVal (ds : List Char) : ℕ :=
  ds.foldl (fun a c => 10 * a + (c.toNat - 48)) 0

/-- Greedy match of `[+\-]?\d*\.?\d+(?:e[+\-]?\d+)?` at the head of the
input, returning the `parseFloat` value of the matched numeral and the
unconsumed remainder; `none` when the regex does not match at the head.
When `\.?` is followed by no digit the regex backtracks and leaves the dot
unconsumed; when `e` is followed by no digit the whole exponent group is
left unconsumed. -/
def parseNum (s : List Char) : Option (ℚ × List Char) :=
  let sgnAndRest : ℚ × List Char :=
    match s with
    | '+' :: r => (1, r)
    | '-' :: r => (-1, r)
    | _ => (1, s)
  let sgn := sgnAndRest.1
  let s1 := sgnAndRest.2
  let d1 := s1.takeWhile Char.isDigit
  let r1 := s1.dropWhile Char.isDigit
  let mant : Option (ℚ × List Char) :=
    match r1 with
    | '.' :: r2 =>
      let d2 := r2.takeWhile Char.isDigit
      let r3 := r2.dropWhile Char.isDigit
      if d2 ≠ [] then
        some ((digitsVal d1 : ℚ) + (digitsVal d2 : ℚ) / (10 : ℚ) ^ d2.length, r3)
      else if d1 ≠ [] then some ((digitsVal d1 : ℚ), r1)
      else none
    | _ => if d1 ≠ [] then some ((digitsVal d1 : ℚ), r1) else none
  match mant with
  | none => none
  | some (m, r4) =>
    let expPart : Option (ℤ × List Char) :=
      match r4 with
      | c :: r5 =>
        if c == 'e' || c == 'E' then
          let esgnAndRest : ℤ × List Char :=
            match r5 with
            | '+' :: r => (1, r)
            | '-' :: r => (-1, r)
            | _ => (1, r5)
          let d3 := esgnAndRest.2.takeWhile Char.isDigit
          let r7 := esgnAndRest.2.dropWhile Char.isDigit
          if d3 ≠ [] then some (esgnAndRest.1 * (digitsVal d3 : ℤ), r7) else none
        else none
      | [] => none
    match expPart with
    | some (e, r7) => some (sgn * m * (10 : ℚ) ^ e, r7)
    | none => some (sgn * m, r4)

/-- Greedy match of one coordinate tuple
`^\s*(num)\s*,\s*(num)(?:\s*,\s*(num))?\s*` at the head of the input:
`x`, `y`, optional `z` defaulting to 0 (`m[3] ? parseFloat(m[3]) : 0`), and
the remainder after the whole match (including its trailing `\s*`). -/
def matchTuple (s : List Char) : Option ((ℚ × ℚ × ℚ) × List Char) :=
  let s1 := s.dropWhile jsIsSpace
  match parseNum s1 with
  | none => none
  | some (x, r1) =>
    let s2 := r1.dropWhile jsIsSpace
    match s2 with
    | ',' :: r2 =>
      let s3 := r2.dropWhile jsIsSpace
      match parseNum s3 with
      | none => none
      | some (y, r3) =>
        let s4 := r3.dropWhile jsIsSpace
        match s4 with
        | ',' :: r4 =>
          let s5 := r4.dropWhile jsIsSpace
          match parseNum s5 with
          | none => some ((x, y, 0), s4)
          | some (z, r5) => some ((x, y, z), r5.dropWhile jsIsSpace)
        | _ => some ((x, y, 0), s4)
    | _ => none

/-- Scan loop of `readFlatCoordinates`: `while ((m = re.exec(s)))` pushes
`x, y, z` and consumes the match.  Every successful tuple match consumes at
least one character, so the fuel (instantiated with `s.length + 1`) is
never exhausted before the loop's fixpoint. -/
def readFlatCoordinatesLoop : ℕ → List Char → List ℚ → List ℚ × List Char
  | 0, s, acc => (acc, s)
  | fuel + 1, s, acc =>
    match matchTuple s with
    | some (xyz, rest) => readFlatCoordinatesLoop fuel rest (acc ++ [xyz.1, xyz.2.1, xyz.2.2])
    | none => (acc, s)

/-- Embedding of `readFlatCoordinates` (KML.js lines 513-532): after the
scan loop, a non-empty unconsumed remainder makes the whole parse fail
(`if (s !== '') return undefined`). -/
def readFlatCoordinates (s : List Char) : Option (List ℚ) :=
  let r := readFlatCoordinatesLoop (s.length + 1) s []
  if r.2 = [] then some r.1 else none

/-! ## Geometry model and multi-geometry homogenization -/

/-- Geometry type tags (`GeometryType`). -/
inductive GType where
  | point
  | lineString
  | polygon
  | geometryCollection
  | multiPoint
  | multiLineString
  | multiPolygon
deriving DecidableEq, Repr

/-- Side properties collected by the `extrude`/`tessellate`/`altitudeMode`
pre-pass on a primitive geometry (`EXTRUDE_AND_ALTITUDE_MODE_PARSERS`):
`extrude` and `tessellate` are set only when `readBoolean` succeeds;
`altitudeMode` is set whenever the element is present (`readString` always
returns a string, possibly empty). -/
structure GeomProps where
  extrude : Option Bool := none
  tessellate : Option Bool := none
  altitudeMode : Option String := none
deriving DecidableEq, Repr

/-- Per-member property arrays attached to a homogenized multi-geometry by
`setCommonGeometryProperties`; `none` means the array was not attached. -/
structure MultiProps where
  extrude : Option (List (Option Bool)) := none
  tessellate : Option (List (Option Bool)) := none
  altitudeMode : Option (List (Option String)) := none
deriving DecidableEq, Repr

/-- Decoded geometries.  Primitive geometries carry their XYZ flat
coordinates (stride 3) and side properties; `polygon` additionally carries
its ring-end offsets.  `LinearRing` children also decode as `polygon`
(see `readLinearRing`). -/
inductive Geometry where
  | point (flat : List ℚ) (props : GeomProps)
  | lineString (flat : List ℚ) (props : GeomProps)
  | polygon (flat : List ℚ) (ends : List ℕ) (props : GeomProps)
  | multiPoint (flat : List ℚ) (props : MultiProps)
  | multiLineString (members : List Geometry) (props : MultiProps)
  | multiPolygon (members : List Geometry) (props : MultiProps)
  | geometryCollection (members : List Geometry)

/-- `getType()`. -/
def Geometry.getType : Geometry → GType
  | .point _ _ => .point
  | .lineString _ _ => .lineString
  | .polygon _ _ _ => .polygon
  | .multiPoint _ _ => .multiPoint
  | .multiLineString _ _ => .multiLineString
  | .multiPolygon _ _ => .multiPolygon
  | .geometryCollection _ => .geometryCollection

/-- `getFlatCoordinates()` for the geometries that store their flat
coordinates directly.  `readMultiGeometry` only calls this on `point`
members (inside the all-`Point` branch), so the composite cases, whose
derived flat coordinates live in the external geometry classes, are not
needed and return `[]`. -/
def Geometry.getFlat : Geometry → List ℚ
  | .point f _ => f
  | .lineString f _ => f
  | .polygon f _ _ => f
  | .multiPoint f _ => f
  | .multiLineString _ _ => []
  | .multiPolygon _ _ => []
  | .geometryCollection _ => []

/-- `geometry.get('extrude')`.  `setCommonGeometryProperties` is only
called with homogeneous lists of `point`/`lineString`/`polygon` members, so
the multi-geometry cases (whose bags would hold arrays) are unreachable at
its call sites and return `none`. -/
def Geometry.getExtrude : Geometry → Option Bool
  | .point _ p => p.extrude
  | .lineString _ p => p.extrude
  | .polygon _ _ p => p.extrude
  | _ => none

/-- `geometry.get('tessellate')` (see `Geometry.getExtrude`). -/
def Geometry.getTessellate : Geometry → Option Bool
  | .point _ p => p.tessellate
  | .lineString _ p => p.tessellate
  | .polygon _ _ p => p.tessellate
  | _ => none

/-- `geometry.get('altitudeMode')` (see `Geometry.getExtrude`). -/
def Geometry.getAltitudeMode : Geometry → Option String
  | .point _ p => p.altitudeMode
  | .lineString _ p => p.altitudeMode
  | .polygon _ _ p => p.altitudeMode
  | _ => none

/-- JavaScript truthiness of a possibly-undefined string, as used by
`hasAltitudeMode = hasAltitudeMode || altitudeModes[i]`: `undefined` and
the empty string are falsy. -/
def jsTruthyStr : Option String → Bool
  | some s => !(s == "")
  | none => false

/-- Embedding of `setCommonGeometryProperties` (KML.js lines 1263-1288):
collect the members' `extrude`/`tessellate`/`altitudeMode` values into
parallel arrays and attach each array only when some member makes its
`has…` flag true — `extrudes[i] !== undefined` for `extrude` and
`tessellate`, but plain truthiness for `altitudeMode`. -/
def setCommonGeometryProperties (geometries : List Geometry) : MultiProps :=
  { extrude :=
      if (geometries.map Geometry.getExtrude).any Option.isSome then
        some (geometries.map Geometry.getExtrude)
      else none,
    tessellate :=
      if (geometries.map Geometry.getTessellate).any Option.isSome then
        some (geometries.map Geometry.getTessellate)
      else none,
    altitudeMode :=
      if (geometries.map Geometry.getAltitudeMode).any jsTruthyStr then
        some (geometries.map Geometry.getAltitudeMode)
      else none }

/-- Embedding of `readMultiGeometry` (KML.js lines 1080-1134), taking the
already-decoded child list (`pushParseAndPop` over
`MULTI_GEOMETRY_PARSERS` always returns the accumulated array, so the
`!geometries` guard is never taken).  `none` models the
`assert(false, 37)` thrown when a homogeneous list has a member type
outside the four-way switch.  In the all-`Point` branch the source extends
the first point's flat-coordinate array with each further member's flat
coordinates and keeps the first point's layout. -/
def readMultiGeometry (geometries : List Geometry) : Option Geometry :=
  match geometries with
  | [] => some (.geometryCollection [])
  | g0 :: rest =>
    if rest.all (fun g => g.getType == g0.getType) then
      match g0.getType with
      | .point =>
        some (.multiPoint (rest.foldl (fun acc g => acc ++ g.getFlat) g0.getFlat)
          (setCommonGeometryProperties (g0 :: rest)))
      | .lineString =>
        some (.multiLineString (g0 :: rest) (setCommonGeometryProperties (g0 :: rest)))
      | .polygon =>
        some (.multiPolygon (g0 :: rest) (setCommonGeometryProperties (g0 :: rest)))
      | .geometryCollection => some (.geometryCollection (g0 :: rest))
      | _ => none
    else some (.geometryCollection (g0 :: rest))

/-- Sample point used to instantiate the homogenization theorems. -/
def samplePoint1 : Geometry :=
  .point [1, 2, 3] { extrude := some true, tessellate := none, altitudeMode := none }

/-- Sample point with no side properties. -/
def samplePoint2 : Geometry := .point [4, 5, 6] {}

/-- Sample point with no side properties. -/
def samplePoint3 : Geometry := .point [7, 8, 9] {}

/-- Sample line string. -/
def sampleLine : Geometry := .lineString [0, 0, 0, 1, 1, 0] {}

/-- Sample single-ring polygon. -/
def samplePolygon : Geometry := .polygon [0, 0, 0, 1, 0, 0, 1, 1, 0] [9] {}

/-! ## Track decode -/

/-- Flat coordinates accumulated by `gxCoordParser` (KML.js lines 867-883):
each `<gx:coord>` pushes `x, y, z, 0`; text that fails the coordinate
regex (modelled as `none`) pushes `0, 0, 0, 0`. -/
def gxCoordFlat (coords : List (Option (ℚ × ℚ × ℚ))) : List ℚ :=
  coords.flatMap (fun c =>
    match c with
    | some (x, y, z) => [x, y, z, 0]
    | none => [0, 0, 0, 0])

/-- Timestamps accumulated by `whenParser` (KML.js lines 1611-1618): the
`Date.parse` result in milliseconds, or 0 when parsing failed
(`isNaN(when) ? 0 : when`); the unparsed case is modelled as `none`. -/
def whensOf (ws : List (Option ℤ)) : List ℤ :=
  ws.map (fun w => w.getD 0)

/-- JavaScript array element assignment `a[i] = v`: assigning past the end
extends the array, leaving undefined holes (`none`) in between. -/
def jsArraySet (l : List (Option ℚ)) (i : ℕ) (v : ℚ) : List (Option ℚ) :=
  if i < l.length then l.set i (some v)
  else l ++ List.replicate (i - l.length) none ++ [some v]

/-- Flat coordinates of the XYZM `LineString` built by `readGxTrack`
(KML.js lines 931-948): starting from the `gxCoordParser` output, the loop
`for (i = 0; i < Math.min(flatCoordinates.length, whens.length); ++i)
flatCoordinates[4 * i + 3] = whens[i]` writes the timestamps into the
M slots.  Note the `min` compares the *flat* length (4 per coordinate)
with the number of timestamps. -/
def readGxTrack (coords : List (Option (ℚ × ℚ × ℚ))) (ws : List (Option ℤ)) :
    List (Option ℚ) :=
  (List.range (min ((gxCoordFlat coords).map some).length (whensOf ws).length)).foldl
    (fun acc i => jsArraySet acc (4 * i + 3) (((whensOf ws).getD i 0 : ℤ) : ℚ))
    ((gxCoordFlat coords).map some)

/-- Modelled from the spec sentence for claim C7 only (not from the code):
timestamps and 3-D positions "zipped by index, the shorter sequence
winning on length mismatch with extra entries of the longer sequence
dropped", each vertex carrying its millisecond timestamp (0 when the
timestamp failed to parse) as the 4th component. -/
def claimedTrackFlat : List (Option (ℚ × ℚ × ℚ)) → List (Option ℤ) → List ℚ
  | c :: cs, w :: ws =>
    (match c with
     | some (x, y, z) => [x, y, z, ((w.getD 0 : ℤ) : ℚ)]
     | none => [0, 0, 0, ((w.getD 0 : ℤ) : ℚ)]) ++ claimedTrackFlat cs ws
  | _, _ => []

/-- Actual per-vertex behaviour of `readGxTrack` when there are at most as
many timestamps as coordinates: every coordinate is retained, the first
`whens.length` vertices get their timestamps as the M component and the
remaining vertices keep the 0 pushed by `gxCoordParser`. -/
def amendedTrackFlat : List (Option (ℚ × ℚ × ℚ)) → List ℤ → List ℚ
  | [], _ => []
  | c :: cs, [] =>
    (match c with
     | some (x, y, z) => [x, y, z, 0]
     | none => [0, 0, 0, 0]) ++ amendedTrackFlat cs []
  | c :: cs, t :: ts =>
    (match c with
     | some (x, y, z) => [x, y, z, (t : ℚ)]
     | none => [0, 0, 0, (t : ℚ)]) ++ amendedTrackFlat cs ts

/-! ## Style model and style resolution -/

/-- Fill sub-style (only the fields the embedded code reads). -/
structure FillS where
  color : List ℚ
deriving DecidableEq, Repr

/-- Stroke sub-style. -/
structure StrokeS where
  color : List ℚ
  width : ℚ
deriving DecidableEq, Repr

/-- Icon sub-style, reduced to the fields `createNameStyleFunction` reads:
`getImageSize()` (null until the icon image is loaded, modelled `none`)
and `getScale()`. -/
structure ImageS where
  imageSize : Option (List ℚ)
  scale : ℚ
deriving DecidableEq, Repr

/-- Text sub-style with the fields the embedded code reads or writes. -/
structure TextS where
  font : Option String
  scale : Option ℚ
  fill : Option FillS
  stroke : Option StrokeS
  text : Option String
  offsetX : ℚ
  offsetY : ℚ
  textAlign : Option String
deriving DecidableEq, Repr

/-- Composite style: up to four independent sub-styles, any of which may
be absent (null). -/
structure StyleS where
  fill : Option FillS
  image : Option ImageS
  stroke : Option StrokeS
  text : Option TextS
deriving DecidableEq, Repr

/-- `DEFAULT_COLOR` (`[255, 255, 255, 1]`). -/
def DEFAULT_COLOR : List ℚ := [255, 255, 255, 1]

/-- `DEFAULT_FILL_STYLE`. -/
def DEFAULT_FILL_STYLE : FillS := ⟨DEFAULT_COLOR⟩

/-- `DEFAULT_IMAGE_STYLE_SIZE` (`[64, 64]`). -/
def DEFAULT_IMAGE_STYLE_SIZE : List ℚ := [64, 64]

/-- `DEFAULT_IMAGE_STYLE`: the pushpin icon, scale 0.5; its image size is
unknown (null) until the icon bitmap is loaded. -/
def DEFAULT_IMAGE_STYLE : ImageS := ⟨none, 1 / 2⟩

/-- `DEFAULT_STROKE_STYLE`. -/
def DEFAULT_STROKE_STYLE : StrokeS := ⟨DEFAULT_COLOR, 1⟩

/-- `DEFAULT_TEXT_STROKE_STYLE`. -/
def DEFAULT_TEXT_STROKE_STYLE : StrokeS := ⟨[51, 51, 51, 1], 2⟩

/-- `DEFAULT_TEXT_STYLE` (`bold 16px Helvetica`, default fill, text stroke,
scale 0.8). -/
def DEFAULT_TEXT_STYLE : TextS :=
  { font := some ("bold 16px Helvetica"), scale := some (4 / 5),
    fill := some DEFAULT_FILL_STYLE, stroke := some DEFAULT_TEXT_STROKE_STYLE,
    text := none, offsetX := 0, offsetY := 0, textAlign := none }

/-- `DEFAULT_STYLE`. -/
def DEFAULT_STYLE : StyleS :=
  { fill := some DEFAULT_FILL_STYLE, image := some DEFAULT_IMAGE_STYLE,
    stroke := some DEFAULT_STROKE_STYLE, text := some DEFAULT_TEXT_STYLE }

/-- `DEFAULT_STYLE_ARRAY`. -/
def DEFAULT_STYLE_ARRAY : List StyleS := [DEFAULT_STYLE]

/-- Value stored in the shared-style registry: a concrete style array, or
a deferred style-map reference string. -/
inductive StyleRef where
  | arr (a : List StyleS)
  | str (s : String)
deriving DecidableEq

/-- Shared-style registry (`this.sharedStyles_`), keyed by resolved style
URI. -/
abbrev Registry := List (String × StyleRef)

/-- Sample shared-style registry used to instantiate the resolution
theorems: a shared style under `#pin` and a two-hop style-map chain whose
references omit their sigils. -/
def sampleRegistry : Registry :=
  [("#pin", .arr DEFAULT_STYLE_ARRAY), ("#map", .str ("map2")),
   ("#map2", .str ("#pin"))]

/-- Key normalisation of `findStyle`: "Add a leading `#` if it enables to
find a style" — a missing bare key is retried with `#` prepended when that
key exists. -/
def normKey (reg : Registry) (s : String) : String :=
  if (reg.lookup s).isNone && (reg.lookup ("#" ++ s)).isSome then "#" ++ s else s

/-- Embedding of `findStyle` (KML.js lines 468-482).  The source recurses
without a bound; each step of a terminating resolution visits a distinct
registry key, so any fuel larger than the registry size is never exhausted
on inputs where the source terminates (on a cyclic registry the source
never returns; the fuel-exhausted branch is unreachable through
`createFeatureStyleFunction`'s fuel for such terminating chains). -/
def findStyle : ℕ → Option StyleRef → List StyleS → Registry → List StyleS
  | _, some (.arr a), _, _ => a
  | fuel + 1, some (.str s), defaultStyle, sharedStyles =>
    findStyle fuel (sharedStyles.lookup (normKey sharedStyles s)) defaultStyle sharedStyles
  | 0, some (.str _), defaultStyle, _ => defaultStyle
  | _, none, defaultStyle, _ => defaultStyle

/-- JavaScript `a || b` on strings (empty string is falsy). -/
def jsOrStr (a : Option String) (b : String) : String :=
  match a with
  | some s => if s == "" then b else s
  | none => b

/-- JavaScript `a || b` on numbers (0 is falsy). -/
def jsOrQ (a : Option ℚ) (b : ℚ) : ℚ :=
  match a with
  | some q => if q == 0 then b else q
  | none => b

/-- JavaScript `a || b` on object references (null is falsy). -/
def jsOr {α : Type} (a b : Option α) : Option α :=
  match a with
  | some x => some x
  | none => b

/-- Embedding of `createNameStyleFunction` (KML.js lines 361-400): build
the synthesized label style for a named point placemark.  The resulting
style carries only a text sub-style (the `Style` constructor is called
with `text` alone, leaving fill, image and stroke null). -/
def createNameStyleFunction (foundStyle : StyleS) (name : String) : StyleS :=
  let offAlign : ℚ × ℚ × String :=
    match foundStyle.image with
    | some img =>
      let imageSize :=
        match img.imageSize with
        | some sz => sz
        | none => DEFAULT_IMAGE_STYLE_SIZE
      if imageSize.length = 2 then
        (img.scale * imageSize.getD 0 0 / 2, -(img.scale * imageSize.getD 1 0) / 2,
          "left")
      else (0, 0, "start")
    | none => (0, 0, "start")
  let textStyle : TextS :=
    match foundStyle.text with
    | some foundText =>
      { foundText with
        font := some (jsOrStr foundText.font (jsOrStr DEFAULT_TEXT_STYLE.font "")),
        scale := some (jsOrQ foundText.scale (jsOrQ DEFAULT_TEXT_STYLE.scale 0)),
        fill := jsOr foundText.fill DEFAULT_TEXT_STYLE.fill,
        stroke := jsOr foundText.stroke (some DEFAULT_TEXT_STROKE_STYLE) }
    | none => DEFAULT_TEXT_STYLE
  { fill := none, image := none, stroke := none,
    text := some { textStyle with
      text := some name, offsetX := offAlign.1, offsetY := offAlign.2.1,
      textAlign := some offAlign.2.2 } }

/-- Embedding of the style function returned by `createFeatureStyleFunction`
(KML.js lines 411-458), evaluated at a feature (represented by its geometry
type, if any, and its `name` property, if any).  `none` models the
TypeError the source would throw indexing `[0]` of an empty resolved style
array while synthesizing a name label; on every other path the result is
`some` of the returned style array.  `findStyle` receives fuel
`sharedStyles.length + 1`, which is never exhausted on resolution chains
on which the source terminates. -/
def createFeatureStyleFunction (style : Option (List StyleS))
    (styleUrl : Option String) (defaultStyle : List StyleS)
    (sharedStyles : Registry) (showPointNames : Bool)
    (geometryType : Option GType) (nameProp : Option String) :
    Option (List StyleS) :=
  let drawName0 := showPointNames &&
    (match geometryType with
     | some t => t == GType.point
     | none => true)
  let name := nameProp.getD ""
  let drawName := drawName0 && !(name == "")
  let withName : List StyleS → Option (List StyleS) := fun found =>
    if drawName then
      match found.head? with
      | some s0 => some (found ++ [createNameStyleFunction s0 name])
      | none => none
    else some found
  match style with
  | some st => withName st
  | none =>
    match styleUrl with
    | some su =>
      if su ≠ "" then
        withName (findStyle (sharedStyles.length + 1) (some (.str su))
          defaultStyle sharedStyles)
      else withName defaultStyle
    | none => withName defaultStyle

/-- Finite resolution chains of `findStyle`: starting from string key `s`,
`n` lookup steps (each through `normKey`) reach the style array `a`. -/
inductive ResolvesTo (reg : Registry) : String → List StyleS → ℕ → Prop where
  | direct (s : String) (a : List StyleS) :
      reg.lookup (normKey reg s) = some (.arr a) → ResolvesTo reg s a 1
  | indirect (s t : String) (a : List StyleS) (n : ℕ) :
      reg.lookup (normKey reg s) = some (.str t) → ResolvesTo reg t a n →
      ResolvesTo reg s a (n + 1)

/-! ## Extended data and the placemark property bag -/

/-- Property bag of a placemark under construction (the `featureObject`),
an insertion-ordered map from property names to values; a `none` value is
a property present with value `undefined`. -/
abbrev Bag := List (String × Option String)

/-- Read a property: `none` when the key is absent, `some v` when present
with value `v`. -/
def bagGet (b : Bag) (k : String) : Option (Option String) :=
  (b.find? (fun p => p.1 == k)).map Prod.snd

/-- Write a property (`obj[k] = v`), keeping insertion order. -/
def bagSet (b : Bag) (k : String) (v : Option String) : Bag :=
  if b.any (fun p => p.1 == k) then
    b.map (fun p => if p.1 == k then (k, v) else p)
  else b ++ [(k, v)]

/-- Delete a property (`delete obj[k]`). -/
def bagDel (b : Bag) (k : String) : Bag :=
  b.filter (fun p => !(p.1 == k))

/-- Child-parse events of one placemark, in document order: a scalar
metadata field decoded by `makeObjectPropertySetter(readString)` (e.g.
`description`, or a `SimpleData` entry), or one extended-data `Data`
element with its `name` attribute and its `displayName`/`value`
children. -/
inductive PlacemarkEvent where
  | scalar (key value : String)
  | dataEntry (nameAttr : Option String) (displayName : Option String)
      (value : Option String)

/-- Embedding of `dataParser` (KML.js lines 1306-1316) acting on the
placemark's property bag: the `displayName`/`value` children are first
written into the bag itself (the `Data` parsers target the top of the
object stack, which is the placemark's `featureObject`); then the value is
stored under the `name` attribute or, failing that, under
`featureObject.displayName` — which is never `null` in the source, so the
else-branch always runs, producing the key `"undefined"` when no
`displayName` was ever set; finally `featureObject.value` is deleted. -/
def dataParser (b : Bag) (nameAttr displayName value : Option String) : Bag :=
  let b1 :=
    match displayName with
    | some d => bagSet b "displayName" (some d)
    | none => b
  let b2 :=
    match value with
    | some v => bagSet b1 "value" (some v)
    | none => b1
  let key :=
    match nameAttr with
    | some n => n
    | none =>
      match bagGet b2 "displayName" with
      | some (some d) => d
      | some none => "undefined"
      | none => "undefined"
  let b3 := bagSet b2 key ((bagGet b2 "value").join)
  bagDel b3 "value"

/-- One placemark child-parse event applied to the property bag. -/
def applyPlacemarkEvent (b : Bag) : PlacemarkEvent → Bag
  | .scalar k v => bagSet b k (some v)
  | .dataEntry nameAttr displayName value => dataParser b nameAttr displayName value

/-- Property bag accumulated by `readPlacemark_` (KML.js lines 1690-1725)
over its child-parse events in document order; `feature.setProperties`
copies this bag onto the feature. -/
def readPlacemarkProperties (events : List PlacemarkEvent) : Bag :=
  events.foldl applyPlacemarkEvent []

/-! ## Namespace guard of the public decode entry points -/

/-- Minimal XML node: namespace URI (`none` for no namespace), local name,
and child elements. -/
structure XmlNode where
  namespaceURI : Option String
  localName : String
  children : List XmlNode

/-- `NAMESPACE_URIS` (KML.js lines 329-335); note that `null` (no
namespace) is itself in the recognized list. -/
def NAMESPACE_URIS : List (Option String) :=
  [none,
   some ("http://earth.google.com/kml/2.0"),
   some ("http://earth.google.com/kml/2.1"),
   some ("http://earth.google.com/kml/2.2"),
   some ("http://www.opengis.net/kml/2.2")]

/-- Embedding of `KML.prototype.readFeaturesFromNode` (KML.js lines
1832-1866).  `readDocumentOrFolder` and `readPlacemark` abstract the
format's private readers; both thread the format state `St` (which carries
the shared-style registry).  The namespace guard returns `[]` with the
state untouched before any of them runs. -/
def readFeaturesFromNode {F St : Type}
    (readDocumentOrFolder : XmlNode → St → Option (List F) × St)
    (readPlacemark : XmlNode → St → Option F × St) :
    XmlNode → St → List F × St
  | n, st =>
    if NAMESPACE_URIS.contains n.namespaceURI then
      if n.localName = "Document" ∨ n.localName = "Folder" then
        match readDocumentOrFolder n st with
        | (some fs, st1) => (fs, st1)
        | (none, st1) => ([], st1)
      else if n.localName = "Placemark" then
        match readPlacemark n st with
        | (some f, st1) => ([f], st1)
        | (none, st1) => ([], st1)
      else if n.localName = "kml" then
        n.children.attach.foldl
          (fun acc c =>
            let r := readFeaturesFromNode readDocumentOrFolder readPlacemark c.1 acc.2
            (acc.1 ++ r.1, r.2))
          ([], st)
      else ([], st)
    else ([], st)
termination_by n => sizeOf n
decreasing_by
  have hm := List.sizeOf_lt_of_mem c.2
  cases n
  simp at *
  omega

/-- Embedding of `KML.prototype.readFeatureFromNode` (KML.js lines
1801-1812): the same namespace guard, then one placemark read. -/
def readFeatureFromNode {F St : Type}
    (readPlacemark : XmlNode → St → Option F × St)
    (n : XmlNode) (st : St) : Option F × St :=
  if NAMESPACE_URIS.contains n.namespaceURI then
    match readPlacemark n st with
    | (some f, st1) => (some f, st1)
    | (none, st1) => (none, st1)
  else (none, st)

/-! ## General list and character-class lemmas -/

lemma dropWhile_append_of_all {p : Char → Bool} {w t : List Char}
    (hw : ∀ c ∈ w, p c = true) : (w ++ t).dropWhile p = t.dropWhile p := by
  induction w with
  | nil => rfl
  | cons a w ih =>
    have ha : p a = true := hw a (by simp)
    simp only [List.cons_append, List.dropWhile_cons, ha, if_true]
    exact ih (fun c hc => hw c (by simp [hc]))

lemma takeWhile_append_of_all {p : Char → Bool} {w t : List Char}
    (hw : ∀ c ∈ w, p c = true) : (w ++ t).takeWhile p = w ++ t.takeWhile p := by
  induction w with
  | nil => rfl
  | cons a w ih =>
    have ha : p a = true := hw a (by simp)
    simp only [List.cons_append, List.takeWhile_cons, ha, if_true]
    rw [ih (fun c hc => hw c (by simp [hc]))]

lemma takeWhile_eq_nil_of_all_neg {p : Char → Bool} {t : List Char}
    (h : ∀ c ∈ t, p c = false) : t.takeWhile p = [] := by
  cases t with
  | nil => rfl
  | cons a t => simp [List.takeWhile_cons, h a (by simp)]

lemma dropWhile_eq_self_of_all_neg {p : Char → Bool} {t : List Char}
    (h : ∀ c ∈ t, p c = false) : t.dropWhile p = t := by
  cases t with
  | nil => rfl
  | cons a t => simp [List.dropWhile_cons, h a (by simp)]

lemma jsIsSpace_cases {c : Char} (h : jsIsSpace c = true) :
    c = ' ' ∨ c = '\t' ∨ c = '\n' ∨ c = '\r' ∨ c = Char.ofNat 11 ∨ c = Char.ofNat 12 := by
  unfold jsIsSpace at h
  simp only [Bool.or_eq_true, beq_iff_eq] at h
  tauto

lemma space_not_hex {c : Char} (h : jsIsSpace c = true) : jsIsHexDigit c = false := by
  rcases jsIsSpace_cases h with rfl | rfl | rfl | rfl | rfl | rfl <;> decide

lemma space_ne_sharp {c : Char} (h : jsIsSpace c = true) : c ≠ '#' := by
  rcases jsIsSpace_cases h with rfl | rfl | rfl | rfl | rfl | rfl <;> decide

lemma hex_not_space {c : Char} (h : jsIsHexDigit c = true) : jsIsSpace c = false := by
  cases hs : jsIsSpace c with
  | false => rfl
  | true => rw [space_not_hex hs] at h; exact Bool.noConfusion h

lemma hex_ne_sharp {c : Char} (h : jsIsHexDigit c = true) : c ≠ '#' := by
  rintro rfl
  exact absurd h (by decide)

lemma stripSigil_of_head_ne {l : List Char} (h : l.head? ≠ some '#') :
    stripSigil l = l := by
  unfold stripSigil
  rw [if_neg h]

lemma stripSigil_sharp_cons (r : List Char) : stripSigil ('#' :: r) = r := by
  unfold stripSigil
  rfl

/-! ## Color codec lemmas -/

set_option maxRecDepth 4096 in
lemma pad2_natToHex : ∀ n < 256, pad2 (natToHex n) = [hexChar (n / 16), hexChar (n % 16)] := by
  decide

lemma hexVal_hexChar : ∀ k < 16, hexVal (hexChar k) = some k := by decide

lemma hexDigit_hexChar : ∀ k < 16, jsIsHexDigit (hexChar k) = true := by decide

lemma lowerHexDigit_hexChar : ∀ k < 16, jsIsLowerHexDigit (hexChar k) = true := by decide

lemma jsParseInt_zero : jsParseInt (0 : ℚ) = 0 := by
  unfold jsParseInt jsParseIntNonneg
  norm_num

lemma jsParseInt_eq_floor {q : ℚ} (h1 : 1 / 1000000 ≤ q) (h2 : q < 10 ^ 21) :
    jsParseInt q = ⌊q⌋ := by
  have h0 : 0 ≤ q := le_trans (by norm_num) h1
  have hq0 : q ≠ 0 := by
    intro h
    rw [h] at h1
    norm_num at h1
  unfold jsParseInt jsParseIntNonneg
  rw [if_pos h0, if_neg hq0, if_pos ⟨h1, h2⟩]

lemma jsParseInt_floorOrZero {q : ℚ} (hlt : q < 10 ^ 21)
    (h : q = 0 ∨ 1 / 1000000 ≤ q) : jsParseInt q = ⌊q⌋ := by
  rcases h with rfl | h1
  · rw [jsParseInt_zero]
    simp
  · exact jsParseInt_eq_floor h1 hlt

lemma jsParseInt_natCast (n : ℕ) (hn : n ≤ 255) : jsParseInt (n : ℚ) = (n : ℤ) := by
  rcases Nat.eq_zero_or_pos n with rfl | hpos
  · simpa using jsParseInt_zero
  · have h1 : (1 : ℚ) ≤ (n : ℚ) := by exact_mod_cast hpos
    have h255 : (n : ℚ) ≤ 255 := by exact_mod_cast hn
    rw [jsParseInt_eq_floor (by linarith) (by linarith [show (255 : ℚ) < 10 ^ 21 from by norm_num])]
    exact Int.floor_natCast n

/-- The exponential-notation mantissa of a positive number has its integer
part in `1..9`. -/
lemma leadingDigit_bounds {x : ℚ} (hx : 0 < x) :
    1 ≤ leadingDigit x ∧ leadingDigit x ≤ 9 := by
  have h1 : ((10 : ℕ) : ℚ) ^ Int.log 10 x ≤ x := Int.zpow_log_le_self (by norm_num) hx
  have h2 : x < ((10 : ℕ) : ℚ) ^ (Int.log 10 x + 1) := Int.lt_zpow_succ_log_self (by norm_num) x
  simp only [Nat.cast_ofNat] at h1 h2
  have hp : (0 : ℚ) < (10 : ℚ) ^ Int.log 10 x := by positivity
  constructor
  · apply Int.le_floor.2
    rw [show ((1 : ℤ) : ℚ) = 1 from by norm_num, le_div_iff hp]
    simpa using h1
  · have hlt : x / (10 : ℚ) ^ Int.log 10 x < 10 := by
      rw [div_lt_iff hp]
      calc x < (10 : ℚ) ^ (Int.log 10 x + 1) := h2
        _ = 10 * (10 : ℚ) ^ Int.log 10 x := by
          rw [zpow_add_one₀ (by norm_num)]
          ring
    have h10 : leadingDigit x < 10 := Int.floor_lt.2 (by exact_mod_cast hlt)
    omega

lemma intToHexChars_nonneg {i : ℤ} (h : 0 ≤ i) : intToHexChars i = natToHex i.toNat := by
  unfold intToHexChars
  rw [if_neg (by omega)]
  congr 1
  omega

/-- Expansion of the written color text into its eight digit characters,
for channels that are integers in range and any alpha byte value `A`
produced by `parseInt` on `alpha * 255`. -/
lemma writeColorTextNode_eq_of_parseInt (r g b : ℕ) (hr : r ≤ 255) (hg : g ≤ 255)
    (hb : b ≤ 255) (a : ℚ) (A : ℕ) (hA : jsParseInt (a * 255) = (A : ℤ))
    (hA255 : A ≤ 255) :
    writeColorTextNode (r : ℚ) (g : ℚ) (b : ℚ) a =
      [hexChar (A / 16), hexChar (A % 16),
       hexChar (b / 16), hexChar (b % 16),
       hexChar (g / 16), hexChar (g % 16),
       hexChar (r / 16), hexChar (r % 16)] := by
  unfold writeColorTextNode
  rw [hA, jsParseInt_natCast b hb, jsParseInt_natCast g hg, jsParseInt_natCast r hr,
    intToHexChars_nonneg (by positivity), intToHexChars_nonneg (by positivity),
    intToHexChars_nonneg (by positivity), intToHexChars_nonneg (by positivity),
    Int.toNat_natCast, Int.toNat_natCast, Int.toNat_natCast, Int.toNat_natCast,
    pad2_natToHex A (by omega), pad2_natToHex b (by omega),
    pad2_natToHex g (by omega), pad2_natToHex r (by omega)]
  simp

/-- Expansion of the written color text when `alpha * 255` is rendered in
decimal notation (zero, or at least `1e-6`), where `parseInt` truncates. -/
lemma writeColorTextNode_digits (r g b : ℕ) (hr : r ≤ 255) (hg : g ≤ 255)
    (hb : b ≤ 255) (a : ℚ) (ha0 : 0 ≤ a) (ha1 : a ≤ 1)
    (ha2 : a * 255 = 0 ∨ 1 / 1000000 ≤ a * 255) :
    writeColorTextNode (r : ℚ) (g : ℚ) (b : ℚ) a =
      [hexChar ((⌊a * 255⌋).toNat / 16), hexChar ((⌊a * 255⌋).toNat % 16),
       hexChar (b / 16), hexChar (b % 16),
       hexChar (g / 16), hexChar (g % 16),
       hexChar (r / 16), hexChar (r % 16)] := by
  have hm0 : (0 : ℤ) ≤ ⌊a * 255⌋ := Int.floor_nonneg.2 (by positivity)
  have hm255 : ⌊a * 255⌋ ≤ 255 := by
    have h1 : a * 255 ≤ 255 := by nlinarith
    have h2 : ⌊a * 255⌋ ≤ ⌊(255 : ℚ)⌋ := Int.floor_le_floor h1
    simpa using h2
  apply writeColorTextNode_eq_of_parseInt r g b hr hg hb a (⌊a * 255⌋).toNat _ (by omega)
  rw [jsParseInt_floorOrZero ?hlt ha2]
  · omega
  case hlt =>
    have h1 : a * 255 ≤ 255 := by nlinarith
    linarith [show (255 : ℚ) < 10 ^ 21 from by norm_num]

/-- Position after `^\s*#?\s*` on a decomposed color text: everything up
to the digit run is consumed. -/
lemma colorTail_decomp (w1 sh w2 w3 : List Char) (c0 : Char) (h' : List Char)
    (hw1 : ∀ c ∈ w1, jsIsSpace c = true)
    (hsh : sh = [] ∨ sh = ['#'])
    (hw2 : ∀ c ∈ w2, jsIsSpace c = true)
    (hc0hex : jsIsHexDigit c0 = true) :
    colorTail (w1 ++ sh ++ w2 ++ (c0 :: h') ++ w3) = c0 :: (h' ++ w3) := by
  have hc0space : jsIsSpace c0 = false := hex_not_space hc0hex
  have hmid : List.dropWhile jsIsSpace (w2 ++ (c0 :: (h' ++ w3))) =
      c0 :: (h' ++ w3) := by
    rw [dropWhile_append_of_all hw2]
    simp [List.dropWhile_cons, hc0space]
  unfold colorTail
  rcases hsh with rfl | rfl
  · have hs : w1 ++ [] ++ w2 ++ (c0 :: h') ++ w3 = w1 ++ (w2 ++ (c0 :: (h' ++ w3))) := by
      simp
    rw [hs, dropWhile_append_of_all hw1, hmid,
      stripSigil_of_head_ne (by simp [hex_ne_sharp hc0hex])]
    simp [List.dropWhile_cons, hc0space]
  · have hs : w1 ++ ['#'] ++ w2 ++ (c0 :: h') ++ w3 =
        w1 ++ ('#' :: (w2 ++ (c0 :: (h' ++ w3)))) := by simp
    have hsharp : jsIsSpace '#' = false := by decide
    rw [hs, dropWhile_append_of_all hw1]
    rw [List.dropWhile_cons, hsharp]
    simp only [Bool.false_eq_true, if_false]
    rw [stripSigil_sharp_cons, hmid]

/-- Value of `readColor` on any text admitting the claim's decomposition:
the digits are read in alpha, blue, green, red byte order. -/
lemma readColor_decomp (w1 sh w2 h w3 : List Char)
    (hw1 : ∀ c ∈ w1, jsIsSpace c = true)
    (hsh : sh = [] ∨ sh = ['#'])
    (hw2 : ∀ c ∈ w2, jsIsSpace c = true)
    (hlen : h.length = 8)
    (hh : ∀ c ∈ h, jsIsHexDigit c = true)
    (hw3 : ∀ c ∈ w3, jsIsSpace c = true) :
    readColor (w1 ++ sh ++ w2 ++ h ++ w3) =
      some [(hexByte h 6 : ℚ), (hexByte h 4 : ℚ), (hexByte h 2 : ℚ),
        (hexByte h 0 : ℚ) / 255] := by
  obtain ⟨c0, h', rfl⟩ : ∃ c0 h', h = c0 :: h' := by
    cases h with
    | nil => simp at hlen
    | cons a l => exact ⟨a, l, rfl⟩
  have htail := colorTail_decomp w1 sh w2 w3 c0 h' hw1 hsh hw2 (hh c0 (by simp))
  have hrun : colorHexRun (w1 ++ sh ++ w2 ++ (c0 :: h') ++ w3) = c0 :: h' := by
    unfold colorHexRun
    rw [htail]
    have hcons : c0 :: (h' ++ w3) = (c0 :: h') ++ w3 := by simp
    rw [hcons, takeWhile_append_of_all hh,
      takeWhile_eq_nil_of_all_neg (fun c hc => space_not_hex (hw3 c hc))]
    simp
  have hrest : colorRest (w1 ++ sh ++ w2 ++ (c0 :: h') ++ w3) = w3 := by
    unfold colorRest
    rw [htail]
    have hcons : c0 :: (h' ++ w3) = (c0 :: h') ++ w3 := by simp
    rw [hcons, dropWhile_append_of_all hh,
      dropWhile_eq_self_of_all_neg (fun c hc => space_not_hex (hw3 c hc))]
  unfold readColor
  rw [hrun, hrest, if_pos ⟨hlen, List.all_eq_true.2 hw3⟩]

/-- Any text accepted by `readColor` admits the claim's decomposition. -/
lemma IsColorText_of_readColor_isSome {s : List Char}
    (h : (readColor s).isSome) : IsColorText s := by
  unfold readColor at h
  by_cases hg : (colorHexRun s).length = 8 ∧ (colorRest s).all jsIsSpace
  · obtain ⟨hlen, hall⟩ := hg
    have hs1 : s = s.takeWhile jsIsSpace ++ s.dropWhile jsIsSpace :=
      (List.takeWhile_append_dropWhile jsIsSpace s).symm
    have hs4 : colorTail s = colorHexRun s ++ colorRest s :=
      (List.takeWhile_append_dropWhile jsIsHexDigit (colorTail s)).symm
    by_cases hsig : (s.dropWhile jsIsSpace).head? = some '#'
    · obtain ⟨c, t1', ht1⟩ : ∃ c t1', s.dropWhile jsIsSpace = c :: t1' := by
        cases ht : s.dropWhile jsIsSpace with
        | nil => rw [ht] at hsig; exact absurd hsig (by simp)
        | cons a l => exact ⟨a, l, rfl⟩
      have hc : c = '#' := by rw [ht1] at hsig; simpa using hsig
      subst hc
      have ht2 : stripSigil (s.dropWhile jsIsSpace) = t1' := by
        rw [ht1, stripSigil_sharp_cons]
      have hs3 : t1' = t1'.takeWhile jsIsSpace ++ colorTail s := by
        conv_lhs => rw [← (List.takeWhile_append_dropWhile jsIsSpace t1')]
        unfold colorTail
        rw [ht2]
      refine ⟨s.takeWhile jsIsSpace, ['#'], t1'.takeWhile jsIsSpace,
        colorHexRun s, colorRest s, ?_, ?_, Or.inr rfl, ?_, hlen, ?_, ?_⟩
      · conv_lhs => rw [hs1, ht1]
        conv_lhs => rw [hs3, hs4]
        simp
      · exact fun c hc => List.mem_takeWhile_imp hc
      · exact fun c hc => List.mem_takeWhile_imp hc
      · exact fun c hc => List.mem_takeWhile_imp hc
      · exact fun c hc => (List.all_eq_true.1 hall) c hc
    · have ht2 : stripSigil (s.dropWhile jsIsSpace) = s.dropWhile jsIsSpace :=
        stripSigil_of_head_ne hsig
      have hs3 : s.dropWhile jsIsSpace =
          (s.dropWhile jsIsSpace).takeWhile jsIsSpace ++ colorTail s := by
        conv_lhs =>
          rw [← (List.takeWhile_append_dropWhile jsIsSpace (s.dropWhile jsIsSpace))]
        unfold colorTail
        rw [ht2]
      refine ⟨s.takeWhile jsIsSpace, [], (s.dropWhile jsIsSpace).takeWhile jsIsSpace,
        colorHexRun s, colorRest s, ?_, ?_, Or.inl rfl, ?_, hlen, ?_, ?_⟩
      · conv_lhs => rw [hs1]
        conv_lhs => rw [hs3, hs4]
        simp
      · exact fun c hc => List.mem_takeWhile_imp hc
      · exact fun c hc => List.mem_takeWhile_imp hc
      · exact fun c hc => List.mem_takeWhile_imp hc
      · exact fun c hc => (List.all_eq_true.1 hall) c hc
  · rw [if_neg hg] at h
    exact Bool.noConfusion h

/-- Value of `readColor` on a bare run of eight hex digits. -/
lemma readColor_hex8 (l : List Char) (hlen : l.length = 8)
    (hh : ∀ c ∈ l, jsIsHexDigit c = true) :
    readColor l = some [(hexByte l 6 : ℚ), (hexByte l 4 : ℚ), (hexByte l 2 : ℚ),
      (hexByte l 0 : ℚ) / 255] := by
  have := readColor_decomp [] [] [] l [] (by simp) (Or.inl rfl) (by simp) hlen hh
    (by simp)
  simpa using this

/-- Recombining the two emitted digits of a byte value. -/
lemma hexByte_pair (n : ℕ) (hn : n ≤ 255) :
    16 * hexValD (hexChar (n / 16)) + hexValD (hexChar (n % 16)) = n := by
  have h1 := hexVal_hexChar (n / 16) (by omega)
  have h2 := hexVal_hexChar (n % 16) (by omega)
  unfold hexValD
  rw [h1, h2]
  simp only [Option.getD_some]
  omega

/-- Bounds on the floor of `alpha * 255` for alpha in the unit interval. -/
lemma floor_alpha_bounds (a : ℚ) (ha0 : 0 ≤ a) (ha1 : a ≤ 1) :
    (0 : ℤ) ≤ ⌊a * 255⌋ ∧ ⌊a * 255⌋ ≤ 255 := by
  constructor
  · exact Int.floor_nonneg.2 (by positivity)
  · have h1 : a * 255 ≤ 255 := by nlinarith
    have h2 := Int.floor_le_floor h1
    simpa using h2

/-! ## Claim theorems: color codec -/

/-- Claim C5: `readColor` returns a color exactly when the text is an
8-hex-digit string with an optional leading `#` and optional surrounding
whitespace (tolerated on either side of the sigil, as the regex allows);
the eight digits are interpreted in alpha, blue, green, red byte order and
the result is `[red, green, blue, alpha/255]`.  `readColor` is a total
function, so non-matching text yields `none`, never an error. -/
theorem readColor_matches_exactly_colorTexts (s : List Char) :
    ((readColor s).isSome ↔ IsColorText s) ∧
    (∀ w1 sh w2 h w3 : List Char, s = w1 ++ sh ++ w2 ++ h ++ w3 →
      (∀ c ∈ w1, jsIsSpace c = true) → sh = [] ∨ sh = ['#'] →
      (∀ c ∈ w2, jsIsSpace c = true) → h.length = 8 →
      (∀ c ∈ h, jsIsHexDigit c = true) → (∀ c ∈ w3, jsIsSpace c = true) →
      readColor s = some [(hexByte h 6 : ℚ), (hexByte h 4 : ℚ),
        (hexByte h 2 : ℚ), (hexByte h 0 : ℚ) / 255]) := by
  constructor
  · constructor
    · exact IsColorText_of_readColor_isSome
    · rintro ⟨w1, sh, w2, h, w3, rfl, hw1, hsh, hw2, hlen, hh, hw3⟩
      rw [readColor_decomp w1 sh w2 h w3 hw1 hsh hw2 hlen hh hw3]
      rfl
  · rintro w1 sh w2 h w3 rfl hw1 hsh hw2 hlen hh hw3
    exact readColor_decomp w1 sh w2 h w3 hw1 hsh hw2 hlen hh hw3

/-- Witness for C5: the styleUrl-like text `# 12345678` (sigil, inner
whitespace) is accepted and decoded in ABGR order. -/
theorem readColor_matches_exactly_colorTexts_witness :
    readColor (("# 12345678").data) =
      some [(hexByte (("12345678").data) 6 : ℚ), (hexByte (("12345678").data) 4 : ℚ),
        (hexByte (("12345678").data) 2 : ℚ), (hexByte (("12345678").data) 0 : ℚ) / 255] :=
  (readColor_matches_exactly_colorTexts (("# 12345678").data)).2
    [] ['#'] [' '] (("12345678").data) [] (by decide) (by decide) (Or.inr rfl)
    (by decide) (by decide) (by decide) (by decide)

/-- Properties of the written text once it is expanded into the eight
digits of the bytes `A` (alpha), `b`, `g`, `r`. -/
lemma writeColor_digits_props (r g b A : ℕ) (hr : r ≤ 255) (hg : g ≤ 255)
    (hb : b ≤ 255) (hA : A ≤ 255) (a : ℚ)
    (hwrite : writeColorTextNode (r : ℚ) (g : ℚ) (b : ℚ) a =
      [hexChar (A / 16), hexChar (A % 16), hexChar (b / 16), hexChar (b % 16),
       hexChar (g / 16), hexChar (g % 16), hexChar (r / 16), hexChar (r % 16)]) :
    (writeColorTextNode (r : ℚ) (g : ℚ) (b : ℚ) a).length = 8 ∧
    (∀ c ∈ writeColorTextNode (r : ℚ) (g : ℚ) (b : ℚ) a,
      jsIsLowerHexDigit c = true) ∧
    hexByte (writeColorTextNode (r : ℚ) (g : ℚ) (b : ℚ) a) 0 = A ∧
    hexByte (writeColorTextNode (r : ℚ) (g : ℚ) (b : ℚ) a) 2 = b ∧
    hexByte (writeColorTextNode (r : ℚ) (g : ℚ) (b : ℚ) a) 4 = g ∧
    hexByte (writeColorTextNode (r : ℚ) (g : ℚ) (b : ℚ) a) 6 = r := by
  rw [hwrite]
  refine ⟨by simp, ?_, ?_, ?_, ?_, ?_⟩
  · intro c hc
    simp only [List.mem_cons, List.not_mem_nil, or_false] at hc
    rcases hc with rfl | rfl | rfl | rfl | rfl | rfl | rfl | rfl <;>
      exact lowerHexDigit_hexChar _ (by omega)
  · exact hexByte_pair A hA
  · exact hexByte_pair b hb
  · exact hexByte_pair g hg
  · exact hexByte_pair r hr

/-- Counterexample for C3: at alpha `3e-9` (with black RGB channels) the
scaled alpha `7.65e-7` is below `1e-6`, so the source stringifies it in
exponential notation (`"7.65e-7"`); `parseInt` reads the mantissa's
leading digit 7 and the writer emits `07000000`, whose decoded alpha
`7/255` misses the claimed `1/255` bound. -/
theorem color_roundtrip_counterexample :
    writeColorTextNode 0 0 0 (3 / 10 ^ 9) = ("07000000").data ∧
    readColor (writeColorTextNode 0 0 0 (3 / 10 ^ 9)) =
      some [0, 0, 0, 7 / 255] ∧
    ¬ ∃ a2 : ℚ, readColor (writeColorTextNode 0 0 0 (3 / 10 ^ 9)) =
      some [0, 0, 0, a2] ∧ |3 / 10 ^ 9 - a2| ≤ 1 / 255 := by
  have hx : (3 / 10 ^ 9 : ℚ) * 255 = 153 / 200000000 := by norm_num
  have hxpos : (0 : ℚ) < 153 / 200000000 := by norm_num
  have hlog : Int.log 10 ((153 : ℚ) / 200000000) = -7 := by
    apply le_antisymm
    · have h6 : (153 : ℚ) / 200000000 < ((10 : ℕ) : ℚ) ^ (-6 : ℤ) := by
        simp only [Nat.cast_ofNat]
        rw [zpow_neg, show ((10 : ℚ) ^ (6 : ℤ)) = 1000000 from by norm_num]
        norm_num
      have := (Int.lt_zpow_iff_log_lt (by norm_num) hxpos).1 h6
      omega
    · have h7 : ((10 : ℕ) : ℚ) ^ (-7 : ℤ) ≤ (153 : ℚ) / 200000000 := by
        simp only [Nat.cast_ofNat]
        rw [zpow_neg, show ((10 : ℚ) ^ (7 : ℤ)) = 10000000 from by norm_num]
        norm_num
      exact (Int.zpow_le_iff_le_log (by norm_num) hxpos).1 h7
  have hA : jsParseInt ((3 / 10 ^ 9 : ℚ) * 255) = 7 := by
    rw [hx]
    unfold jsParseInt jsParseIntNonneg leadingDigit
    rw [if_pos hxpos.le, if_neg (by norm_num),
      if_neg (by rintro ⟨hcon, -⟩; norm_num at hcon), hlog]
    rw [show ((153 : ℚ) / 200000000) / (10 : ℚ) ^ (-7 : ℤ) = 153 / 20 from by
      rw [zpow_neg, show ((10 : ℚ) ^ (7 : ℤ)) = 10000000 from by norm_num]
      norm_num]
    rw [Int.floor_eq_iff]
    constructor <;> norm_num
  have hwrite : writeColorTextNode 0 0 0 (3 / 10 ^ 9) = ("07000000").data := by
    unfold writeColorTextNode
    rw [hA, jsParseInt_zero]
    decide
  have hread : readColor (("07000000").data) = some [0, 0, 0, 7 / 255] := by
    rw [readColor_hex8 _ (by decide) (by decide)]
    norm_num [show hexByte (("07000000").data) 6 = 0 from by decide,
      show hexByte (("07000000").data) 4 = 0 from by decide,
      show hexByte (("07000000").data) 2 = 0 from by decide,
      show hexByte (("07000000").data) 0 = 7 from by decide]
  refine ⟨hwrite, by rw [hwrite]; exact hread, ?_⟩
  rintro ⟨a2, heq, hbound⟩
  rw [hwrite, hread] at heq
  simp only [Option.some.injEq, List.cons.injEq, and_true] at heq
  rw [← heq.2.2.2, abs_le] at hbound
  have := hbound.1
  norm_num at this

/-- Claim C3 as amended: the color round-trip law restricted to alphas
whose scaled value `alpha * 255` is rendered in decimal notation (zero, or
at least `1e-6`): decoding the written text reproduces the integer RGB
channels exactly and the alpha within 1/255.  For `alpha * 255` in
`(0, 1e-6)` the source's `parseInt` instead reads the leading digit of the
exponential rendering and the bound can fail, as the counterexample
shows. -/
theorem color_roundtrip (r g b : ℕ) (hr : r ≤ 255) (hg : g ≤ 255)
    (hb : b ≤ 255) (a : ℚ) (ha0 : 0 ≤ a) (ha1 : a ≤ 1)
    (ha2 : a * 255 = 0 ∨ 1 / 1000000 ≤ a * 255) :
    ∃ a2 : ℚ, readColor (writeColorTextNode (r : ℚ) (g : ℚ) (b : ℚ) a) =
      some [(r : ℚ), (g : ℚ), (b : ℚ), a2] ∧ |a - a2| ≤ 1 / 255 := by
  obtain ⟨hm0, hm255⟩ := floor_alpha_bounds a ha0 ha1
  refine ⟨((⌊a * 255⌋).toNat : ℚ) / 255, ?_, ?_⟩
  · rw [writeColorTextNode_digits r g b hr hg hb a ha0 ha1 ha2]
    rw [readColor_hex8 _ (by simp) ?hex]
    case hex =>
      intro c hc
      simp only [List.mem_cons, List.not_mem_nil, or_false] at hc
      rcases hc with rfl | rfl | rfl | rfl | rfl | rfl | rfl | rfl <;>
        exact hexDigit_hexChar _ (by omega)
    have e6 : hexByte [hexChar ((⌊a * 255⌋).toNat / 16), hexChar ((⌊a * 255⌋).toNat % 16),
        hexChar (b / 16), hexChar (b % 16), hexChar (g / 16), hexChar (g % 16),
        hexChar (r / 16), hexChar (r % 16)] 6 =
        16 * hexValD (hexChar (r / 16)) + hexValD (hexChar (r % 16)) := rfl
    have e4 : hexByte [hexChar ((⌊a * 255⌋).toNat / 16), hexChar ((⌊a * 255⌋).toNat % 16),
        hexChar (b / 16), hexChar (b % 16), hexChar (g / 16), hexChar (g % 16),
        hexChar (r / 16), hexChar (r % 16)] 4 =
        16 * hexValD (hexChar (g / 16)) + hexValD (hexChar (g % 16)) := rfl
    have e2 : hexByte [hexChar ((⌊a * 255⌋).toNat / 16), hexChar ((⌊a * 255⌋).toNat % 16),
        hexChar (b / 16), hexChar (b % 16), hexChar (g / 16), hexChar (g % 16),
        hexChar (r / 16), hexChar (r % 16)] 2 =
        16 * hexValD (hexChar (b / 16)) + hexValD (hexChar (b % 16)) := rfl
    have e0 : hexByte [hexChar ((⌊a * 255⌋).toNat / 16), hexChar ((⌊a * 255⌋).toNat % 16),
        hexChar (b / 16), hexChar (b % 16), hexChar (g / 16), hexChar (g % 16),
        hexChar (r / 16), hexChar (r % 16)] 0 =
        16 * hexValD (hexChar ((⌊a * 255⌋).toNat / 16)) +
          hexValD (hexChar ((⌊a * 255⌋).toNat % 16)) := rfl
    rw [e6, e4, e2, e0, hexByte_pair r hr, hexByte_pair g hg, hexByte_pair b hb,
      hexByte_pair _ (by omega)]
  · have hfl : ((⌊a * 255⌋ : ℤ) : ℚ) ≤ a * 255 := Int.floor_le _
    have hfu : a * 255 < (⌊a * 255⌋ : ℤ) + 1 := Int.lt_floor_add_one _
    have hcast : (((⌊a * 255⌋).toNat : ℕ) : ℚ) = ((⌊a * 255⌋ : ℤ) : ℚ) := by
      rw [← Int.cast_natCast]
      congr 1
      omega
    rw [hcast, abs_le]
    constructor <;> nlinarith [hfl, hfu]

/-- Witness for the amended C3 at the color `(18, 52, 86)` with alpha one
half (scaled alpha `127.5`, well inside the decimal-notation range). -/
theorem color_roundtrip_witness :
    (18 ≤ 255 ∧ 52 ≤ 255 ∧ 86 ≤ 255 ∧ (0 : ℚ) ≤ 1 / 2 ∧ (1 : ℚ) / 2 ≤ 1 ∧
      ((1 : ℚ) / 2 * 255 = 0 ∨ 1 / 1000000 ≤ (1 : ℚ) / 2 * 255)) ∧
    ∃ a2 : ℚ, readColor (writeColorTextNode ((18 : ℕ) : ℚ) ((52 : ℕ) : ℚ)
        ((86 : ℕ) : ℚ) (1 / 2)) =
      some [((18 : ℕ) : ℚ), ((52 : ℕ) : ℚ), ((86 : ℕ) : ℚ), a2] ∧
      |1 / 2 - a2| ≤ 1 / 255 :=
  ⟨⟨by norm_num, by norm_num, by norm_num, by norm_num, by norm_num,
      Or.inr (by norm_num)⟩,
    color_roundtrip 18 52 86 (by norm_num) (by norm_num) (by norm_num)
      (1 / 2) (by norm_num) (by norm_num) (Or.inr (by norm_num))⟩

/-- Counterexample for C4: at the color `[0, 0, 0, 0.999]` the writer
emits `fe000000` (truncating `0.999 * 255 = 254.745` to 254) while the
claimed rounding-and-clamping writer would emit `ff000000`. -/
theorem writeColor_not_rounded_counterexample :
    writeColorTextNode 0 0 0 (999 / 1000) = ("fe000000").data ∧
    writeColorRoundedClamped 0 0 0 (999 / 1000) = ("ff000000").data ∧
    writeColorTextNode 0 0 0 (999 / 1000) ≠
      writeColorRoundedClamped 0 0 0 (999 / 1000) := by
  have hprod : ((999 : ℚ) / 1000 * 255) = 50949 / 200 := by norm_num
  have h254 : jsParseInt ((999 : ℚ) / 1000 * 255) = 254 := by
    rw [hprod, jsParseInt_eq_floor (by norm_num) (by norm_num)]
    rw [Int.floor_eq_iff]
    constructor <;> norm_num
  have h0 : jsParseInt (0 : ℚ) = 0 := jsParseInt_zero
  have hfe : writeColorTextNode 0 0 0 (999 / 1000) = ("fe000000").data := by
    unfold writeColorTextNode
    rw [h254, h0]
    decide
  have hround : ⌊(999 : ℚ) / 1000 * 255 + 1 / 2⌋ = 255 := by
    rw [hprod]
    rw [Int.floor_eq_iff]
    constructor <;> norm_num
  have hzero : ⌊(0 : ℚ) + 1 / 2⌋ = 0 := by
    rw [Int.floor_eq_iff]
    constructor <;> norm_num
  have hff : writeColorRoundedClamped 0 0 0 (999 / 1000) = ("ff000000").data := by
    unfold writeColorRoundedClamped
    rw [hround, hzero]
    decide
  exact ⟨hfe, hff, by rw [hfe, hff]; decide⟩

/-- Claim C4 as amended: the writer emits the four components in the order
`[alpha*255, blue, green, red]`, each value passed through `parseInt` on
its JavaScript decimal rendering (never rounded, never clamped): when the
scaled alpha is zero or at least `1e-6` this truncates toward zero, and
when it lies in `(0, 1e-6)` the rendering is exponential and `parseInt`
returns the leading significant digit of the value instead.  For a color
whose channels are integers in 0–255 and whose alpha is in the unit
interval the output is in both regimes exactly eight lower-case hex
digits, each component left-zero-padded to two digits with no
separators. -/
theorem writeColor_amended (r g b : ℕ) (hr : r ≤ 255) (hg : g ≤ 255)
    (hb : b ≤ 255) (a : ℚ) (ha0 : 0 ≤ a) (ha1 : a ≤ 1) :
    ((a * 255 = 0 ∨ 1 / 1000000 ≤ a * 255) →
      (writeColorTextNode (r : ℚ) (g : ℚ) (b : ℚ) a).length = 8 ∧
      (∀ c ∈ writeColorTextNode (r : ℚ) (g : ℚ) (b : ℚ) a,
        jsIsLowerHexDigit c = true) ∧
      hexByte (writeColorTextNode (r : ℚ) (g : ℚ) (b : ℚ) a) 0 = (⌊a * 255⌋).toNat ∧
      hexByte (writeColorTextNode (r : ℚ) (g : ℚ) (b : ℚ) a) 2 = b ∧
      hexByte (writeColorTextNode (r : ℚ) (g : ℚ) (b : ℚ) a) 4 = g ∧
      hexByte (writeColorTextNode (r : ℚ) (g : ℚ) (b : ℚ) a) 6 = r) ∧
    (0 < a * 255 → a * 255 < 1 / 1000000 →
      (writeColorTextNode (r : ℚ) (g : ℚ) (b : ℚ) a).length = 8 ∧
      (∀ c ∈ writeColorTextNode (r : ℚ) (g : ℚ) (b : ℚ) a,
        jsIsLowerHexDigit c = true) ∧
      hexByte (writeColorTextNode (r : ℚ) (g : ℚ) (b : ℚ) a) 0 =
        (leadingDigit (a * 255)).toNat ∧
      hexByte (writeColorTextNode (r : ℚ) (g : ℚ) (b : ℚ) a) 2 = b ∧
      hexByte (writeColorTextNode (r : ℚ) (g : ℚ) (b : ℚ) a) 4 = g ∧
      hexByte (writeColorTextNode (r : ℚ) (g : ℚ) (b : ℚ) a) 6 = r) := by
  constructor
  · intro ha2
    obtain ⟨hm0, hm255⟩ := floor_alpha_bounds a ha0 ha1
    exact writeColor_digits_props r g b (⌊a * 255⌋).toNat hr hg hb (by omega) a
      (writeColorTextNode_digits r g b hr hg hb a ha0 ha1 ha2)
  · intro hpos hlt
    obtain ⟨hd1, hd9⟩ := leadingDigit_bounds hpos
    have hne : ¬ (a * 255 = 0) := ne_of_gt hpos
    have hnd : ¬ (1 / 1000000 ≤ a * 255 ∧ a * 255 < 10 ^ 21) := by
      rintro ⟨hcon, -⟩
      linarith
    have hA : jsParseInt (a * 255) = ((leadingDigit (a * 255)).toNat : ℤ) := by
      unfold jsParseInt jsParseIntNonneg
      rw [if_pos (le_of_lt hpos), if_neg hne, if_neg hnd]
      omega
    exact writeColor_digits_props r g b (leadingDigit (a * 255)).toNat hr hg hb
      (by omega) a
      (writeColorTextNode_eq_of_parseInt r g b hr hg hb a
        (leadingDigit (a * 255)).toNat hA (by omega))

/-- Witness for the amended C4: the decimal regime at the color `(1, 2, 3)`
with alpha 1, and the exponential regime at black with alpha `3e-9`. -/
theorem writeColor_amended_witness :
    ((0 : ℚ) ≤ 1 ∧ (1 : ℚ) ≤ 1 ∧
      ((1 : ℚ) * 255 = 0 ∨ 1 / 1000000 ≤ (1 : ℚ) * 255) ∧
      ((writeColorTextNode ((1 : ℕ) : ℚ) ((2 : ℕ) : ℚ) ((3 : ℕ) : ℚ) 1).length = 8 ∧
      (∀ c ∈ writeColorTextNode ((1 : ℕ) : ℚ) ((2 : ℕ) : ℚ) ((3 : ℕ) : ℚ) 1,
        jsIsLowerHexDigit c = true) ∧
      hexByte (writeColorTextNode ((1 : ℕ) : ℚ) ((2 : ℕ) : ℚ) ((3 : ℕ) : ℚ) 1) 0 =
        (⌊(1 : ℚ) * 255⌋).toNat ∧
      hexByte (writeColorTextNode ((1 : ℕ) : ℚ) ((2 : ℕ) : ℚ) ((3 : ℕ) : ℚ) 1) 2 = 3 ∧
      hexByte (writeColorTextNode ((1 : ℕ) : ℚ) ((2 : ℕ) : ℚ) ((3 : ℕ) : ℚ) 1) 4 = 2 ∧
      hexByte (writeColorTextNode ((1 : ℕ) : ℚ) ((2 : ℕ) : ℚ) ((3 : ℕ) : ℚ) 1) 6 = 1)) ∧
    ((0 : ℚ) < 3 / 10 ^ 9 * 255 ∧ (3 : ℚ) / 10 ^ 9 * 255 < 1 / 1000000 ∧
      ((writeColorTextNode ((0 : ℕ) : ℚ) ((0 : ℕ) : ℚ) ((0 : ℕ) : ℚ)
          (3 / 10 ^ 9)).length = 8 ∧
      (∀ c ∈ writeColorTextNode ((0 : ℕ) : ℚ) ((0 : ℕ) : ℚ) ((0 : ℕ) : ℚ)
          (3 / 10 ^ 9), jsIsLowerHexDigit c = true) ∧
      hexByte (writeColorTextNode ((0 : ℕ) : ℚ) ((0 : ℕ) : ℚ) ((0 : ℕ) : ℚ)
          (3 / 10 ^ 9)) 0 = (leadingDigit ((3 : ℚ) / 10 ^ 9 * 255)).toNat ∧
      hexByte (writeColorTextNode ((0 : ℕ) : ℚ) ((0 : ℕ) : ℚ) ((0 : ℕ) : ℚ)
          (3 / 10 ^ 9)) 2 = 0 ∧
      hexByte (writeColorTextNode ((0 : ℕ) : ℚ) ((0 : ℕ) : ℚ) ((0 : ℕ) : ℚ)
          (3 / 10 ^ 9)) 4 = 0 ∧
      hexByte (writeColorTextNode ((0 : ℕ) : ℚ) ((0 : ℕ) : ℚ) ((0 : ℕ) : ℚ)
          (3 / 10 ^ 9)) 6 = 0)) :=
  ⟨⟨by norm_num, by norm_num, Or.inr (by norm_num),
      (writeColor_amended 1 2 3 (by norm_num) (by norm_num) (by norm_num) 1
        (by norm_num) (by norm_num)).1 (Or.inr (by norm_num))⟩,
    ⟨by norm_num, by norm_num,
      (writeColor_amended 0 0 0 (by norm_num) (by norm_num) (by norm_num)
        (3 / 10 ^ 9) (by norm_num) (by norm_num)).2 (by norm_num) (by norm_num)⟩⟩

/-! ## Claim theorems: multi-geometry homogenization -/

/-- The `extend(flatCoordinates, …)` loop over the members concatenates
their flat coordinates after the initial list. -/
lemma foldl_append_getFlat (gs : List Geometry) (init : List ℚ) :
    gs.foldl (fun acc g => acc ++ g.getFlat) init =
      init ++ (gs.map Geometry.getFlat).flatten := by
  induction gs generalizing init with
  | nil => simp
  | cons g gs ih =>
    simp only [List.foldl_cons, List.map_cons, List.flatten_cons, ih,
      List.append_assoc]

/-- Counterexample for C1's "if and only if at least one member had a
defined value": a single `Point` member with a defined but empty
`altitudeMode` string (`<altitudeMode></altitudeMode>` decodes to `""`,
which `makeObjectPropertySetter` stores since it is not undefined) has a
defined `altitudeMode`, yet the homogenized `MultiPoint` gets no
`altitudeMode` array because the source tests plain truthiness
(`hasAltitudeMode || altitudeModes[i]`) and `""` is falsy. -/
theorem multiGeometry_altitudeMode_counterexample :
    (Geometry.getAltitudeMode (Geometry.point [1, 2, 3]
      { extrude := none, tessellate := none, altitudeMode := some "" })).isSome = true ∧
    (setCommonGeometryProperties [Geometry.point [1, 2, 3]
      { extrude := none, tessellate := none, altitudeMode := some "" }]).altitudeMode
      = none ∧
    readMultiGeometry [Geometry.point [1, 2, 3]
      { extrude := none, tessellate := none, altitudeMode := some "" }] =
      some (Geometry.multiPoint [1, 2, 3]
        { extrude := none, tessellate := none, altitudeMode := none }) :=
  ⟨rfl, rfl, rfl⟩

/-- Claim C1 as amended: `readMultiGeometry` yields an empty
`GeometryCollection` on an empty child list; a `MultiPoint` concatenating
the members' flat coordinates (3 flat slots per point) when all children
are points; the matching `Multi*` wrapper for all-`LineString` and
all-`Polygon`; a `GeometryCollection` preserving the members in order when
the types are not all equal; and the parallel per-member array is attached
iff some member has a defined value for `extrude`/`tessellate`, but for
`altitudeMode` iff some member has a defined *non-empty* value (the one
place where the source tests truthiness rather than definedness). -/
theorem readMultiGeometry_amended :
    (readMultiGeometry [] = some (Geometry.geometryCollection [])) ∧
    (∀ gs : List Geometry, gs ≠ [] → (∀ g ∈ gs, g.getType = GType.point) →
      readMultiGeometry gs =
        some (Geometry.multiPoint ((gs.map Geometry.getFlat).flatten)
          (setCommonGeometryProperties gs))) ∧
    (∀ gs : List Geometry, (∀ g ∈ gs, (Geometry.getFlat g).length = 3) →
      ((gs.map Geometry.getFlat).flatten).length = 3 * gs.length) ∧
    (∀ gs : List Geometry, gs ≠ [] → (∀ g ∈ gs, g.getType = GType.lineString) →
      readMultiGeometry gs =
        some (Geometry.multiLineString gs (setCommonGeometryProperties gs))) ∧
    (∀ gs : List Geometry, gs ≠ [] → (∀ g ∈ gs, g.getType = GType.polygon) →
      readMultiGeometry gs =
        some (Geometry.multiPolygon gs (setCommonGeometryProperties gs))) ∧
    (∀ (g0 : Geometry) (rest : List Geometry),
      (∃ g ∈ rest, g.getType ≠ g0.getType) →
      readMultiGeometry (g0 :: rest) = some (Geometry.geometryCollection (g0 :: rest))) ∧
    (∀ gs : List Geometry,
      ((setCommonGeometryProperties gs).extrude ≠ none ↔
        ∃ g ∈ gs, (Geometry.getExtrude g).isSome = true) ∧
      ((setCommonGeometryProperties gs).tessellate ≠ none ↔
        ∃ g ∈ gs, (Geometry.getTessellate g).isSome = true) ∧
      ((setCommonGeometryProperties gs).altitudeMode ≠ none ↔
        ∃ g ∈ gs, ∃ sv : String, Geometry.getAltitudeMode g = some sv ∧ sv ≠ "")) := by
  have hhomog : ∀ (g0 : Geometry) (rest : List Geometry) (t : GType),
      (∀ g ∈ g0 :: rest, g.getType = t) →
      rest.all (fun g => g.getType == g0.getType) = true := by
    intro g0 rest t hall
    rw [List.all_eq_true]
    intro g hg
    rw [beq_iff_eq, hall g (by simp [hg]), hall g0 (by simp)]
  refine ⟨rfl, ?_, ?_, ?_, ?_, ?_, ?_⟩
  · intro gs hne hall
    obtain ⟨g0, rest, rfl⟩ := List.exists_cons_of_ne_nil hne
    have h0 : g0.getType = GType.point := hall g0 (by simp)
    simp only [readMultiGeometry]
    rw [hhomog g0 rest _ hall, h0]
    simp only [if_true]
    rw [foldl_append_getFlat]
    simp
  · intro gs hlen
    induction gs with
    | nil => simp
    | cons g gs ih =>
      simp only [List.map_cons, List.flatten_cons, List.length_append,
        List.length_cons, hlen g (by simp)]
      rw [ih (fun g hg => hlen g (by simp [hg]))]
      ring
  · intro gs hne hall
    obtain ⟨g0, rest, rfl⟩ := List.exists_cons_of_ne_nil hne
    have h0 : g0.getType = GType.lineString := hall g0 (by simp)
    simp only [readMultiGeometry]
    rw [hhomog g0 rest _ hall, h0]
    simp
  · intro gs hne hall
    obtain ⟨g0, rest, rfl⟩ := List.exists_cons_of_ne_nil hne
    have h0 : g0.getType = GType.polygon := hall g0 (by simp)
    simp only [readMultiGeometry]
    rw [hhomog g0 rest _ hall, h0]
    simp
  · intro g0 rest hwit
    obtain ⟨g, hgmem, hgne⟩ := hwit
    have hfalse : ¬(rest.all (fun g => g.getType == g0.getType) = true) := by
      rw [List.all_eq_true]
      push_neg
      exact ⟨g, hgmem, by simpa [beq_iff_eq] using hgne⟩
    simp only [readMultiGeometry]
    rw [if_neg hfalse]
  · intro gs
    have htruthy : ∀ o : Option String,
        jsTruthyStr o = true ↔ ∃ sv : String, o = some sv ∧ sv ≠ "" := by
      intro o
      cases o with
      | none => simp [jsTruthyStr]
      | some sv =>
        simp only [jsTruthyStr, Bool.not_eq_eq_eq_not, Bool.not_true, beq_eq_false_iff_ne,
          ne_eq, Option.some.injEq]
        constructor
        · intro h
          exact ⟨sv, rfl, h⟩
        · rintro ⟨sv2, rfl, h⟩
          exact h
    have hEx : ∀ f : Geometry → Option Bool,
        ((if (gs.map f).any Option.isSome then some (gs.map f) else none) ≠ none ↔
          ∃ g ∈ gs, (f g).isSome = true) := by
      intro f
      by_cases hany : (gs.map f).any Option.isSome = true
      · rw [if_pos hany]
        simp only [List.any_eq_true, List.mem_map] at hany
        obtain ⟨o, ⟨g, hg, rfl⟩, ho⟩ := hany
        exact ⟨fun _ => ⟨g, hg, ho⟩, fun _ => by simp⟩
      · rw [if_neg hany]
        simp only [List.any_eq_true, List.mem_map] at hany
        push_neg at hany
        constructor
        · intro hcon
          exact absurd rfl hcon
        · rintro ⟨g, hg, hsome⟩
          exact absurd hsome (by simpa using hany (f g) ⟨g, hg, rfl⟩)
    refine ⟨?_, ?_, ?_⟩
    · simpa only [setCommonGeometryProperties] using hEx Geometry.getExtrude
    · simpa only [setCommonGeometryProperties] using hEx Geometry.getTessellate
    · simp only [setCommonGeometryProperties]
      by_cases hany : (gs.map Geometry.getAltitudeMode).any jsTruthyStr = true
      · rw [if_pos hany]
        simp only [List.any_eq_true, List.mem_map] at hany
        obtain ⟨o, ⟨g, hg, rfl⟩, ho⟩ := hany
        obtain ⟨sv, hsv, hne⟩ := (htruthy _).1 ho
        exact ⟨fun _ => ⟨g, hg, sv, hsv, hne⟩, fun _ => by simp⟩
      · rw [if_neg hany]
        simp only [List.any_eq_true, List.mem_map] at hany
        push_neg at hany
        constructor
        · intro hcon
          exact absurd rfl hcon
        · rintro ⟨g, hg, sv, hsv, hne⟩
          exact absurd ((htruthy _).2 ⟨sv, hsv, hne⟩)
            (by simpa using hany (Geometry.getAltitudeMode g) ⟨g, hg, rfl⟩)

/-- Witness for the amended C1: three points homogenize to a `MultiPoint`
with nine flat slots, lines and polygons to their `Multi*` wrappers, and a
point–line mix stays a `GeometryCollection`. -/
theorem readMultiGeometry_amended_witness :
    readMultiGeometry [samplePoint1, samplePoint2, samplePoint3] =
      some (Geometry.multiPoint
        ((([samplePoint1, samplePoint2, samplePoint3].map Geometry.getFlat)).flatten)
        (setCommonGeometryProperties [samplePoint1, samplePoint2, samplePoint3])) ∧
    ((([samplePoint1, samplePoint2, samplePoint3].map Geometry.getFlat)).flatten).length =
      3 * ([samplePoint1, samplePoint2, samplePoint3] : List Geometry).length ∧
    readMultiGeometry [sampleLine] =
      some (Geometry.multiLineString [sampleLine]
        (setCommonGeometryProperties [sampleLine])) ∧
    readMultiGeometry [samplePolygon] =
      some (Geometry.multiPolygon [samplePolygon]
        (setCommonGeometryProperties [samplePolygon])) ∧
    readMultiGeometry [samplePoint1, sampleLine] =
      some (Geometry.geometryCollection [samplePoint1, sampleLine]) :=
  ⟨readMultiGeometry_amended.2.1 _ (List.cons_ne_nil _ _) (by decide),
   readMultiGeometry_amended.2.2.1 _ (by decide),
   readMultiGeometry_amended.2.2.2.1 _ (List.cons_ne_nil _ _) (by decide),
   readMultiGeometry_amended.2.2.2.2.1 _ (List.cons_ne_nil _ _) (by decide),
   readMultiGeometry_amended.2.2.2.2.2.1 samplePoint1 [sampleLine]
     ⟨sampleLine, by simp, by decide⟩⟩

/-! ## Claim theorems: track decode -/

lemma gxCoordFlat_length (coords : List (Option (ℚ × ℚ × ℚ))) :
    (gxCoordFlat coords).length = 4 * coords.length := by
  induction coords with
  | nil => rfl
  | cons c cs ih =>
    cases c with
    | none => simp [gxCoordFlat] at ih ⊢; omega
    | some t =>
      obtain ⟨x, y, z⟩ := t
      simp [gxCoordFlat] at ih ⊢
      omega

lemma amendedTrackFlat_nil (coords : List (Option (ℚ × ℚ × ℚ))) :
    amendedTrackFlat coords [] = gxCoordFlat coords := by
  induction coords with
  | nil => rfl
  | cons c cs ih =>
    cases c with
    | none => simp [amendedTrackFlat, gxCoordFlat, ih]
    | some t =>
      obtain ⟨x, y, z⟩ := t
      simp only [amendedTrackFlat, ih]
      simp [gxCoordFlat]

lemma set_append_left_q (l1 l2 : List (Option ℚ)) (i : ℕ) (v : Option ℚ)
    (h : i < l1.length) : (l1 ++ l2).set i v = l1.set i v ++ l2 := by
  induction l1 generalizing i with
  | nil => simp at h
  | cons a l1 ih =>
    cases i with
    | zero => simp
    | succ i =>
      simp only [List.cons_append, List.set_cons_succ, List.cons.injEq, true_and]
      exact ih i (by simpa using h)

lemma set_append_right_q (l1 l2 : List (Option ℚ)) (i : ℕ) (v : Option ℚ)
    (h : l1.length ≤ i) : (l1 ++ l2).set i v = l1 ++ l2.set (i - l1.length) v := by
  induction l1 generalizing i with
  | nil => simp
  | cons a l1 ih =>
    cases i with
    | zero => simp at h
    | succ i =>
      simp only [List.cons_append, List.set_cons_succ, List.cons.injEq, true_and,
        List.length_cons, Nat.succ_sub_succ]
      exact ih i (by simpa using h)

lemma jsArraySet_append_left (l1 l2 : List (Option ℚ)) (i : ℕ) (v : ℚ)
    (h : i < l1.length) :
    jsArraySet (l1 ++ l2) i v = jsArraySet l1 i v ++ l2 := by
  have h1 : i < (l1 ++ l2).length := by
    simp only [List.length_append]
    omega
  unfold jsArraySet
  rw [if_pos h1, if_pos h]
  exact set_append_left_q l1 l2 i (some v) h

lemma jsArraySet_append_right (l1 l2 : List (Option ℚ)) (i : ℕ) (v : ℚ)
    (h : l1.length ≤ i) :
    jsArraySet (l1 ++ l2) i v = l1 ++ jsArraySet l2 (i - l1.length) v := by
  by_cases hlt : i < l1.length + l2.length
  · have ha : i < (l1 ++ l2).length := by
      simp only [List.length_append]
      omega
    have hb : i - l1.length < l2.length := by omega
    unfold jsArraySet
    rw [if_pos ha, if_pos hb]
    exact set_append_right_q l1 l2 i (some v) h
  · have ha : ¬ i < (l1 ++ l2).length := by
      simp only [List.length_append]
      omega
    have hb : ¬ i - l1.length < l2.length := by omega
    unfold jsArraySet
    rw [if_neg ha, if_neg hb]
    have harith : i - (l1.length + l2.length) = i - l1.length - l2.length := by omega
    simp only [List.length_append, List.append_assoc, harith]

lemma foldl_front_invariant {β : Type} (g g2 : List (Option ℚ) → β → List (Option ℚ))
    (pre : List (Option ℚ)) (l : List β) (acc : List (Option ℚ))
    (hcomm : ∀ a b, b ∈ l → g (pre ++ a) b = pre ++ g2 a b) :
    l.foldl g (pre ++ acc) = pre ++ l.foldl g2 acc := by
  induction l generalizing acc with
  | nil => rfl
  | cons b l ih =>
    simp only [List.foldl_cons]
    rw [hcomm acc b (by simp)]
    exact ih _ (fun a b hb => hcomm a b (by simp [hb]))

lemma readGxTrack_amended_aux : ∀ (ws : List ℤ) (coords : List (Option (ℚ × ℚ × ℚ))),
    ws.length ≤ coords.length →
    (List.range (min (4 * coords.length) ws.length)).foldl
      (fun acc i => jsArraySet acc (4 * i + 3) ((ws.getD i 0 : ℤ) : ℚ))
      ((gxCoordFlat coords).map some) =
    (amendedTrackFlat coords ws).map some := by
  intro ws
  induction ws with
  | nil =>
    intro coords hle
    simp [amendedTrackFlat_nil]
  | cons w ws ih =>
    intro coords hle
    obtain ⟨c, cs, rfl⟩ : ∃ c cs, coords = c :: cs := by
      cases coords with
      | nil => simp at hle
      | cons c cs => exact ⟨c, cs, rfl⟩
    have hmin : min (4 * (c :: cs).length) (w :: ws).length = ws.length + 1 := by
      simp only [List.length_cons] at hle ⊢
      omega
    rw [hmin, List.range_succ_eq_map, List.foldl_cons, List.foldl_map]
    have hblock : ∃ x y z : ℚ,
        gxCoordFlat (c :: cs) = [x, y, z, 0] ++ gxCoordFlat cs ∧
        (amendedTrackFlat (c :: cs) (w :: ws)).map some =
          ([x, y, z, (w : ℚ)].map some) ++ (amendedTrackFlat cs ws).map some := by
      cases c with
      | none => exact ⟨0, 0, 0, by simp [gxCoordFlat], by simp [amendedTrackFlat]⟩
      | some t =>
        obtain ⟨x, y, z⟩ := t
        exact ⟨x, y, z, by simp [gxCoordFlat], by simp [amendedTrackFlat]⟩
    obtain ⟨x, y, z, hcoord, hamend⟩ := hblock
    rw [hcoord, hamend]
    have hset0 : jsArraySet (([x, y, z, 0].map some) ++ (gxCoordFlat cs).map some)
        (4 * 0 + 3) (((w :: ws).getD 0 0 : ℤ) : ℚ) =
        ([x, y, z, (w : ℚ)].map some) ++ (gxCoordFlat cs).map some := by
      rw [jsArraySet_append_left _ _ _ _ (by simp)]
      simp [jsArraySet]
    simp only [List.map_append] at hset0 ⊢
    rw [hset0]
    have hcomm : ∀ (a : List (Option ℚ)) (i : ℕ), i ∈ List.range ws.length →
        jsArraySet (([x, y, z, (w : ℚ)].map some) ++ a) (4 * (i + 1) + 3)
          (((w :: ws).getD (i + 1) 0 : ℤ) : ℚ) =
        ([x, y, z, (w : ℚ)].map some) ++ jsArraySet a (4 * i + 3) ((ws.getD i 0 : ℤ) : ℚ) := by
      intro a i _
      rw [jsArraySet_append_right _ _ _ _ (by simp; omega)]
      have h1 : 4 * (i + 1) + 3 - ([x, y, z, (w : ℚ)].map some).length = 4 * i + 3 := by
        simp
        omega
      rw [h1]
      rfl
    rw [foldl_front_invariant _ _ _ _ _ hcomm]
    congr 1
    have hmin2 : List.range ws.length =
        List.range (min (4 * cs.length) ws.length) := by
      congr 1
      simp only [List.length_cons] at hle
      omega
    rw [hmin2]
    exact ih cs (by simpa using hle)

/-- Counterexample for C7: two coordinates and one timestamp.  The claim
("the shorter sequence wins, extra entries of the longer sequence are
dropped") predicts a single-vertex result with 4 flat slots; the code
keeps both coordinates (8 flat slots), because its zip bound is
`min(flatCoordinates.length, whens.length)` where the flat length is 4 per
coordinate, and the second vertex keeps timestamp 0. -/
theorem readGxTrack_counterexample :
    (readGxTrack [some (1, 2, 3), some (4, 5, 6)] [some 100]).length = 8 ∧
    (claimedTrackFlat [some (1, 2, 3), some (4, 5, 6)] [some 100]).length = 4 ∧
    readGxTrack [some (1, 2, 3), some (4, 5, 6)] [some 100] ≠
      (claimedTrackFlat [some (1, 2, 3), some (4, 5, 6)] [some 100]).map some := by
  have h8 : (readGxTrack [some (1, 2, 3), some (4, 5, 6)] [some 100]).length = 8 := rfl
  have h4 : (claimedTrackFlat [some (1, 2, 3), some (4, 5, 6)] [some 100]).length = 4 := rfl
  refine ⟨h8, h4, ?_⟩
  intro heq
  have hlen := congrArg List.length heq
  rw [h8, List.length_map, h4] at hlen
  exact absurd hlen (by decide)

/-- Claim C7 as amended: when there are at most as many timestamps as
coordinates, `readGxTrack` retains every coordinate (nothing is dropped),
writing the i-th timestamp into the M slot of the i-th vertex and leaving
timestamp 0 (also the value used when the timestamp text failed to parse)
on the remaining vertices; the result is the flat-coordinate list of a
single XYZM `LineString`.  (With more timestamps than coordinates the
source instead writes past the end of the flat array, as the
counterexample's `min` bound shows.) -/
theorem readGxTrack_amended (coords : List (Option (ℚ × ℚ × ℚ)))
    (ws : List (Option ℤ)) (h : ws.length ≤ coords.length) :
    readGxTrack coords ws = (amendedTrackFlat coords (whensOf ws)).map some := by
  unfold readGxTrack
  rw [List.length_map, gxCoordFlat_length]
  exact readGxTrack_amended_aux (whensOf ws) coords (by simpa [whensOf] using h)

/-- Witness for the amended C7: two coordinates (one of them unparsable),
one timestamp. -/
theorem readGxTrack_amended_witness :
    ([some 5] : List (Option ℤ)).length ≤
      ([some (1, 2, 3), none] : List (Option (ℚ × ℚ × ℚ))).length ∧
    readGxTrack [some (1, 2, 3), none] [some 5] =
      (amendedTrackFlat [some (1, 2, 3), none] (whensOf [some 5])).map some :=
  ⟨by decide, readGxTrack_amended [some (1, 2, 3), none] [some 5] (by decide)⟩

/-! ## Claim theorems: style resolution -/

lemma findStyle_arr (fuel : ℕ) (a dflt : List StyleS) (reg : Registry) :
    findStyle fuel (some (.arr a)) dflt reg = a := by
  cases fuel <;> rfl

lemma findStyle_undefined (fuel : ℕ) (dflt : List StyleS) (reg : Registry) :
    findStyle fuel none dflt reg = dflt := by
  cases fuel <;> rfl

lemma findStyle_str_step (fuel : ℕ) (s : String) (dflt : List StyleS) (reg : Registry) :
    findStyle (fuel + 1) (some (.str s)) dflt reg =
      findStyle fuel (reg.lookup (normKey reg s)) dflt reg := rfl

/-- A finite resolution chain is followed by `findStyle` whenever the fuel
covers its length. -/
lemma findStyle_resolves {reg : Registry} {s : String} {a : List StyleS} {n : ℕ}
    (h : ResolvesTo reg s a n) (dflt : List StyleS) :
    ∀ fuel, n ≤ fuel → findStyle fuel (some (.str s)) dflt reg = a := by
  induction h with
  | direct s a hlook =>
    intro fuel hf
    cases fuel with
    | zero => omega
    | succ fuel =>
      rw [findStyle_str_step, hlook, findStyle_arr]
  | indirect s t a n hlook htail ih =>
    intro fuel hf
    cases fuel with
    | zero => omega
    | succ fuel =>
      rw [findStyle_str_step, hlook]
      exact ih fuel (by omega)

/-- Fields of the synthesized name style: only a text sub-style, whose
label is the feature's name. -/
lemma createNameStyleFunction_fields (st : StyleS) (nm : String) :
    (createNameStyleFunction st nm).fill = none ∧
    (createNameStyleFunction st nm).stroke = none ∧
    (createNameStyleFunction st nm).image = none ∧
    ∃ ts : TextS, (createNameStyleFunction st nm).text = some ts ∧
      ts.text = some nm := by
  refine ⟨rfl, rfl, rfl, ⟨_, rfl, rfl⟩⟩

/-- Claim C2: style resolution precedence and shared-style lookup.
An inline style wins outright (the result does not depend on the styleUrl,
and is exactly the inline array); a styleUrl is resolved through
`findStyle`, which retries with a leading `#` when the bare key is absent
but the `#`-prefixed key is present, and recursively follows string-valued
registry entries until a style array is reached; with no inline style and
no styleUrl, or with an unresolvable reference, the default style array is
returned.  The resolution conjuncts are stated with `showPointNames`
disabled so that the resolved array is returned as-is (name synthesis on
top of the resolved array is claim C8's subject). -/
theorem styleResolution_spec :
    (∀ (st : List StyleS) (su1 su2 : Option String) (dflt : List StyleS)
      (reg : Registry) (pn : Bool) (gt : Option GType) (nm : Option String),
      createFeatureStyleFunction (some st) su1 dflt reg pn gt nm =
        createFeatureStyleFunction (some st) su2 dflt reg pn gt nm) ∧
    (∀ (st : List StyleS) (su : Option String) (dflt : List StyleS)
      (reg : Registry) (gt : Option GType) (nm : Option String),
      createFeatureStyleFunction (some st) su dflt reg false gt nm = some st) ∧
    (∀ (su : String) (dflt : List StyleS) (reg : Registry) (a : List StyleS)
      (n : ℕ) (gt : Option GType) (nm : Option String),
      su ≠ "" → ResolvesTo reg su a n → n ≤ reg.length + 1 →
      createFeatureStyleFunction none (some su) dflt reg false gt nm = some a) ∧
    (∀ (s : String) (dflt : List StyleS) (reg : Registry) (a : List StyleS)
      (gt : Option GType) (nm : Option String),
      s ≠ "" → reg.lookup s = none → reg.lookup ("#" ++ s) = some (.arr a) →
      createFeatureStyleFunction none (some s) dflt reg false gt nm = some a) ∧
    (∀ (dflt : List StyleS) (reg : Registry) (gt : Option GType) (nm : Option String),
      createFeatureStyleFunction none none dflt reg false gt nm = some dflt) ∧
    (∀ (su : String) (dflt : List StyleS) (reg : Registry) (gt : Option GType)
      (nm : Option String),
      su ≠ "" → reg.lookup (normKey reg su) = none →
      createFeatureStyleFunction none (some su) dflt reg false gt nm = some dflt) := by
  refine ⟨?_, ?_, ?_, ?_, ?_, ?_⟩
  · intro st su1 su2 dflt reg pn gt nm
    rfl
  · intro st su dflt reg gt nm
    simp [createFeatureStyleFunction]
  · intro su dflt reg a n gt nm hsu hres hn
    simp only [createFeatureStyleFunction, Bool.false_and, Bool.and_self]
    rw [if_pos hsu]
    simp only [Bool.false_and, if_false, Bool.false_eq_true]
    rw [findStyle_resolves hres dflt (reg.length + 1) hn]
  · intro s dflt reg a gt nm hs hbare hsharp
    have hres : ResolvesTo reg s a 1 := by
      apply ResolvesTo.direct
      unfold normKey
      rw [if_pos (by rw [hbare, hsharp]; rfl)]
      exact hsharp
    simp only [createFeatureStyleFunction, Bool.false_and, Bool.and_self]
    rw [if_pos hs]
    simp only [Bool.false_and, if_false, Bool.false_eq_true]
    rw [findStyle_resolves hres dflt (reg.length + 1) (by omega)]
  · intro dflt reg gt nm
    simp [createFeatureStyleFunction]
  · intro su dflt reg gt nm hsu hlook
    simp only [createFeatureStyleFunction, Bool.false_and, Bool.and_self]
    rw [if_pos hsu]
    simp only [Bool.false_and, if_false, Bool.false_eq_true]
    rw [findStyle_str_step, hlook, findStyle_undefined]

/-- Witness for C2 on `sampleRegistry`: a two-hop style-map chain (with
missing sigils) resolves to the shared array, the bare key `pin` resolves
against the registry key `#pin`, and an unknown key falls back to the
default array. -/
theorem styleResolution_spec_witness :
    createFeatureStyleFunction none (some ("map")) DEFAULT_STYLE_ARRAY
      sampleRegistry false none none = some DEFAULT_STYLE_ARRAY ∧
    createFeatureStyleFunction none (some ("pin")) DEFAULT_STYLE_ARRAY
      sampleRegistry false none none = some DEFAULT_STYLE_ARRAY ∧
    createFeatureStyleFunction none (some ("nope")) DEFAULT_STYLE_ARRAY
      sampleRegistry false none none = some DEFAULT_STYLE_ARRAY :=
  ⟨styleResolution_spec.2.2.1 ("map") DEFAULT_STYLE_ARRAY sampleRegistry
      DEFAULT_STYLE_ARRAY 3 none none (by decide)
      (ResolvesTo.indirect _ ("map2") _ 2 rfl
        (ResolvesTo.indirect _ ("#pin") _ 1 rfl (ResolvesTo.direct _ _ rfl)))
      (by decide),
   styleResolution_spec.2.2.2.1 ("pin") DEFAULT_STYLE_ARRAY sampleRegistry
      DEFAULT_STYLE_ARRAY none none (by decide) rfl rfl,
   styleResolution_spec.2.2.2.2.2 ("nope") DEFAULT_STYLE_ARRAY sampleRegistry
      none none (by decide) rfl⟩

/-- Claim C8: point-name synthesis.  For a `Point` feature with a
non-empty name and no inline style, evaluating the style function with
`showPointNames` enabled returns the `showPointNames`-disabled result
(the resolved style array, unchanged) with one extra style appended: an
image-less, stroke-less, fill-less style carrying only a text sub-style
whose label is the feature's name. -/
theorem pointNameSynthesis (su : Option String) (dflt : List StyleS)
    (reg : Registry) (nm : String) (hnm : nm ≠ "") (base : List StyleS)
    (hbase : createFeatureStyleFunction none su dflt reg false
      (some GType.point) (some nm) = some base)
    (hne : base ≠ []) :
    ∃ ns : StyleS,
      createFeatureStyleFunction none su dflt reg true
        (some GType.point) (some nm) = some (base ++ [ns]) ∧
      ns.fill = none ∧ ns.stroke = none ∧ ns.image = none ∧
      ∃ ts : TextS, ns.text = some ts ∧ ts.text = some nm := by
  obtain ⟨s0, base', rfl⟩ : ∃ s0 base', base = s0 :: base' := by
    cases base with
    | nil => exact absurd rfl hne
    | cons s0 base' => exact ⟨s0, base', rfl⟩
  have hbeq : (nm == "") = false := beq_eq_false_iff_ne.2 hnm
  cases su with
  | none =>
    have hb : dflt = s0 :: base' := by
      simpa [createFeatureStyleFunction] using hbase
    refine ⟨createNameStyleFunction s0 nm, ?_, createNameStyleFunction_fields s0 nm⟩
    simp [createFeatureStyleFunction, hb, hbeq]
  | some s =>
    by_cases hs : s ≠ ""
    · have hb : findStyle (reg.length + 1) (some (.str s)) dflt reg = s0 :: base' := by
        have := hbase
        simp only [createFeatureStyleFunction, Bool.false_and, Bool.and_self] at this
        rw [if_pos hs] at this
        simpa using this
      refine ⟨createNameStyleFunction s0 nm, ?_, createNameStyleFunction_fields s0 nm⟩
      simp only [createFeatureStyleFunction]
      rw [if_pos hs]
      simp [hb, hbeq]
    · have hb : dflt = s0 :: base' := by
        have := hbase
        simp only [createFeatureStyleFunction, Bool.false_and, Bool.and_self] at this
        rw [if_neg hs] at this
        simpa using this
      refine ⟨createNameStyleFunction s0 nm, ?_, createNameStyleFunction_fields s0 nm⟩
      simp only [createFeatureStyleFunction]
      rw [if_neg hs]
      simp [hb, hbeq]

/-- Witness for C8: the `Point` placemark named "Depot" with the default
style array. -/
theorem pointNameSynthesis_witness :
    ("Depot" ≠ "" ∧ (DEFAULT_STYLE_ARRAY : List StyleS) ≠ []) ∧
    ∃ ns : StyleS,
      createFeatureStyleFunction none none DEFAULT_STYLE_ARRAY [] true
        (some GType.point) (some ("Depot")) = some (DEFAULT_STYLE_ARRAY ++ [ns]) ∧
      ns.fill = none ∧ ns.stroke = none ∧ ns.image = none ∧
      ∃ ts : TextS, ns.text = some ts ∧ ts.text = some ("Depot") :=
  ⟨⟨by decide, by simp [DEFAULT_STYLE_ARRAY]⟩,
   pointNameSynthesis none DEFAULT_STYLE_ARRAY [] ("Depot") (by decide)
     DEFAULT_STYLE_ARRAY rfl (by simp [DEFAULT_STYLE_ARRAY])⟩

/-! ## Claim theorems: extended data -/

lemma find?_map_set {b : Bag} {k : String} {v : Option String}
    (hany : b.any (fun p => p.1 == k) = true) :
    (b.map (fun p => if p.1 == k then (k, v) else p)).find? (fun p => p.1 == k) =
      some (k, v) := by
  induction b with
  | nil => simp at hany
  | cons p b ih =>
    by_cases hp : (p.1 == k) = true
    · simp only [List.map_cons, if_pos hp]
      rw [List.find?_cons_of_pos _ (by simp)]
    · simp only [List.map_cons, if_neg hp]
      rw [List.find?_cons_of_neg _ (by simpa using hp)]
      apply ih
      simp only [List.any_cons, Bool.or_eq_true] at hany
      tauto

lemma find?_append_of_none {b l2 : Bag} {p : String × Option String → Bool}
    (hnone : b.find? p = none) : (b ++ l2).find? p = l2.find? p := by
  induction b with
  | nil => rfl
  | cons q b ih =>
    by_cases hq : p q = true
    · rw [List.find?_cons_of_pos _ hq] at hnone
      exact Option.noConfusion hnone
    · rw [List.find?_cons_of_neg _ (by simpa using hq)] at hnone
      rw [List.cons_append, List.find?_cons_of_neg _ (by simpa using hq)]
      exact ih hnone

lemma any_eq_false_find?_none {b : Bag} {k : String}
    (hany : b.any (fun p => p.1 == k) = false) :
    b.find? (fun p => p.1 == k) = none := by
  induction b with
  | nil => rfl
  | cons q b ih =>
    simp only [List.any_cons, Bool.or_eq_false_iff] at hany
    rw [List.find?_cons_of_neg _ (by simp [hany.1])]
    exact ih hany.2

lemma bagGet_set_self (b : Bag) (k : String) (v : Option String) :
    bagGet (bagSet b k v) k = some v := by
  unfold bagGet bagSet
  by_cases hany : b.any (fun p => p.1 == k) = true
  · rw [if_pos hany, find?_map_set hany]
    rfl
  · have hfalse : b.any (fun p => p.1 == k) = false := by
      cases hb : b.any (fun p => p.1 == k) with
      | false => rfl
      | true => exact absurd hb hany
    rw [if_neg hany]
    rw [find?_append_of_none (any_eq_false_find?_none hfalse)]
    rw [List.find?_cons_of_pos _ (by simp)]
    rfl

lemma find?_map_set_other {b : Bag} {k k' : String} {v : Option String}
    (h : k' ≠ k) :
    (b.map (fun p => if p.1 == k then (k, v) else p)).find? (fun p => p.1 == k') =
      b.find? (fun p => p.1 == k') := by
  induction b with
  | nil => rfl
  | cons p b ih =>
    by_cases hp : (p.1 == k) = true
    · have hpk : p.1 = k := by simpa using hp
      simp only [List.map_cons, if_pos hp]
      rw [List.find?_cons_of_neg _ (by simp [Ne.symm h]),
        List.find?_cons_of_neg _ (by simp [hpk, Ne.symm h])]
      exact ih
    · simp only [List.map_cons, if_neg hp]
      by_cases hq : (p.1 == k') = true
      · rw [List.find?_cons_of_pos _ (by exact hq), List.find?_cons_of_pos _ (by exact hq)]
      · rw [List.find?_cons_of_neg _ (by simpa using hq),
          List.find?_cons_of_neg _ (by simpa using hq)]
        exact ih

lemma find?_append_single_neg {b : Bag} {x : String × Option String}
    {p : String × Option String → Bool} (hx : p x = false) :
    (b ++ [x]).find? p = b.find? p := by
  induction b with
  | nil =>
    simp only [List.nil_append]
    rw [List.find?_cons_of_neg _ (by simpa using hx)]
  | cons q b ih =>
    by_cases hq : p q = true
    · rw [List.cons_append, List.find?_cons_of_pos _ (by exact hq),
        List.find?_cons_of_pos _ (by exact hq)]
    · rw [List.cons_append, List.find?_cons_of_neg _ (by simpa using hq),
        List.find?_cons_of_neg _ (by simpa using hq)]
      exact ih

lemma bagGet_set_other (b : Bag) (k k' : String) (v : Option String)
    (h : k' ≠ k) : bagGet (bagSet b k v) k' = bagGet b k' := by
  unfold bagGet bagSet
  by_cases hany : b.any (fun p => p.1 == k) = true
  · rw [if_pos hany]
    congr 1
    exact find?_map_set_other h
  · rw [if_neg hany]
    congr 1
    exact find?_append_single_neg (by simp [Ne.symm h])

lemma bagGet_del_other (b : Bag) (k k' : String) (h : k' ≠ k) :
    bagGet (bagDel b k) k' = bagGet b k' := by
  unfold bagGet bagDel
  congr 1
  induction b with
  | nil => rfl
  | cons p b ih =>
    by_cases hp : (p.1 == k) = true
    · have hpk : p.1 = k := by simpa using hp
      rw [List.filter_cons_of_neg (by simpa using hp)]
      rw [List.find?_cons_of_neg _ (by simp [hpk, Ne.symm h])]
      exact ih
    · rw [List.filter_cons_of_pos (by simpa using hp)]
      by_cases hq : (p.1 == k') = true
      · rw [List.find?_cons_of_pos _ (by exact hq), List.find?_cons_of_pos _ (by exact hq)]
      · rw [List.find?_cons_of_neg _ (by simpa using hq),
          List.find?_cons_of_neg _ (by simpa using hq)]
        exact ih

/-- Claim C9: extended-data entries populate the property bag keyed by the
`name` attribute (or the `displayName` child when no `name` attribute
exists), and property writes are last-write-wins in document order — in
particular an extended-data entry overwrites a same-named scalar field
read earlier, and conversely a later scalar write overwrites the
extended-data value.  (The key `"value"` is excluded: `dataParser` deletes
it after every entry.) -/
theorem extendedDataOverwrite :
    (∀ (es : List PlacemarkEvent) (k v : String) (dn : Option String) (v2 : String),
      k ≠ "value" →
      bagGet (readPlacemarkProperties
        (es ++ [.scalar k v, .dataEntry (some k) dn (some v2)])) k = some (some v2)) ∧
    (∀ (es : List PlacemarkEvent) (k v2 : String),
      k ≠ "value" →
      bagGet (readPlacemarkProperties (es ++ [.dataEntry none (some k) (some v2)])) k =
        some (some v2)) ∧
    (∀ (es : List PlacemarkEvent) (k v : String) (dn : Option String) (v2 : String),
      k ≠ "value" →
      bagGet (readPlacemarkProperties
        (es ++ [.dataEntry (some k) dn (some v2), .scalar k v])) k = some (some v)) := by
  refine ⟨?_, ?_, ?_⟩
  · intro es k v dn v2 hk
    unfold readPlacemarkProperties
    rw [List.foldl_append]
    simp only [List.foldl_cons, List.foldl_nil]
    simp only [applyPlacemarkEvent, dataParser]
    rw [bagGet_del_other _ _ _ hk, bagGet_set_self, bagGet_set_self]
    rfl
  · intro es k v2 hk
    unfold readPlacemarkProperties
    rw [List.foldl_append]
    simp only [List.foldl_cons, List.foldl_nil]
    simp only [applyPlacemarkEvent, dataParser]
    rw [show ∀ b : Bag, bagGet (bagSet (bagSet b "displayName" (some k))
        "value" (some v2)) "displayName" = some (some k) from fun b => by
      rw [bagGet_set_other _ _ _ _ (by decide), bagGet_set_self]]
    simp only []
    rw [bagGet_del_other _ _ _ hk, bagGet_set_self, bagGet_set_self]
    rfl
  · intro es k v dn v2 hk
    unfold readPlacemarkProperties
    rw [List.foldl_append]
    simp only [List.foldl_cons, List.foldl_nil]
    simp only [applyPlacemarkEvent]
    rw [bagGet_set_self]

/-- Witness for C9: a scalar `description` followed by an extended-data
`description` entry ends with the extended-data value; the reverse order
ends with the scalar value; a name-less entry keys by its display name. -/
theorem extendedDataOverwrite_witness :
    bagGet (readPlacemarkProperties
      ([] ++ [.scalar ("description") ("from-scalar"),
        .dataEntry (some ("description")) none (some ("from-data"))]))
      ("description") = some (some ("from-data")) ∧
    bagGet (readPlacemarkProperties
      ([] ++ [.dataEntry none (some ("label")) (some ("shown"))])) ("label") =
      some (some ("shown")) ∧
    bagGet (readPlacemarkProperties
      ([] ++ [.dataEntry (some ("description")) none (some ("from-data")),
        .scalar ("description") ("late-scalar")])) ("description") =
      some (some ("late-scalar")) :=
  ⟨extendedDataOverwrite.1 [] ("description") ("from-scalar") none ("from-data")
      (by decide),
   extendedDataOverwrite.2.1 [] ("label") ("shown") (by decide),
   extendedDataOverwrite.2.2 [] ("description") ("late-scalar") none ("from-data")
      (by decide)⟩

/-! ## Claim theorems: namespace guard -/

/-- Claim C10: on a node whose namespace URI is not in the recognized
list, `readFeaturesFromNode` returns `[]` and `readFeatureFromNode`
returns null, in both cases without running any reader and with the format
state (carrying the shared-style registry) returned unchanged. -/
theorem namespaceGuard {F St : Type}
    (readDocumentOrFolder : XmlNode → St → Option (List F) × St)
    (readPlacemark : XmlNode → St → Option F × St) (n : XmlNode) (st : St)
    (h : ¬ NAMESPACE_URIS.contains n.namespaceURI = true) :
    readFeaturesFromNode readDocumentOrFolder readPlacemark n st = ([], st) ∧
    readFeatureFromNode readPlacemark n st = (none, st) := by
  constructor
  · rw [readFeaturesFromNode]
    rw [if_neg h]
  · unfold readFeatureFromNode
    rw [if_neg h]

/-- Witness for C10: a node in an unrecognized namespace, with reader
callbacks that would report a feature if they ever ran. -/
theorem namespaceGuard_witness :
    (¬ NAMESPACE_URIS.contains (some ("http://example.com/ns")) = true) ∧
    readFeaturesFromNode
      (fun (_ : XmlNode) (s : ℕ) => ((some [0] : Option (List ℕ)), s + 1))
      (fun (_ : XmlNode) (s : ℕ) => ((some 0 : Option ℕ), s + 1))
      ⟨some ("http://example.com/ns"), "kml", []⟩ 7 = ([], 7) ∧
    readFeatureFromNode (fun (_ : XmlNode) (s : ℕ) => ((some 0 : Option ℕ), s + 1))
      ⟨some ("http://example.com/ns"), "kml", []⟩ 7 = (none, 7) :=
  ⟨by decide,
   (namespaceGuard (fun (_ : XmlNode) (s : ℕ) => ((some [0] : Option (List ℕ)), s + 1))
      (fun (_ : XmlNode) (s : ℕ) => ((some 0 : Option ℕ), s + 1))
      ⟨some ("http://example.com/ns"), "kml", []⟩ 7 (by decide)).1,
   (namespaceGuard (fun (_ : XmlNode) (s : ℕ) => ((some [0] : Option (List ℕ)), s + 1))
      (fun (_ : XmlNode) (s : ℕ) => ((some 0 : Option ℕ), s + 1))
      ⟨some ("http://example.com/ns"), "kml", []⟩ 7 (by decide)).2⟩

/-! ## Claim theorems: coordinate parsing -/

/-- Claim C6: `readFlatCoordinates` scans numeric tuples (x, y, optional z
defaulting to 0, with whitespace around the commas tolerated) anchored at
the current position, and fails (returns `none`) whenever non-whitespace
residual text remains unconsumed once the matches are exhausted; the
example text with irregular internal whitespace parses to the flat
sequence `[1, 2, 3, 4, 5, 6]`. -/
theorem readFlatCoordinates_spec :
    (∀ s : List Char,
      ((readFlatCoordinatesLoop (s.length + 1) s []).2.any
        (fun c => !jsIsSpace c)) = true →
      readFlatCoordinates s = none) ∧
    readFlatCoordinates (("1.0,  2.0 , 3.0  4,5,6").data) =
      some [1, 2, 3, 4, 5, 6] ∧
    readFlatCoordinates (("7,8").data) = some [7, 8, 0] := by
  refine ⟨?_, ?_, ?_⟩
  · intro s h
    simp only [readFlatCoordinates]
    rw [if_neg]
    intro heq
    rw [heq] at h
    simp at h
  · have h2 : readFlatCoordinates (("1.0,  2.0 , 3.0  4,5,6").data) =
        some [1 * ((digitsVal (['1']) : ℚ) + (digitsVal (['0']) : ℚ) / (10 : ℚ) ^ (1 : ℕ)),
          1 * ((digitsVal (['2']) : ℚ) + (digitsVal (['0']) : ℚ) / (10 : ℚ) ^ (1 : ℕ)),
          1 * ((digitsVal (['3']) : ℚ) + (digitsVal (['0']) : ℚ) / (10 : ℚ) ^ (1 : ℕ)),
          1 * (digitsVal (['4']) : ℚ),
          1 * (digitsVal (['5']) : ℚ),
          1 * (digitsVal (['6']) : ℚ)] := rfl
    rw [h2]
    norm_num [show digitsVal (['1']) = 1 from by decide,
      show digitsVal (['2']) = 2 from by decide,
      show digitsVal (['3']) = 3 from by decide,
      show digitsVal (['4']) = 4 from by decide,
      show digitsVal (['5']) = 5 from by decide,
      show digitsVal (['6']) = 6 from by decide,
      show digitsVal (['0']) = 0 from by decide]
  · have h3 : readFlatCoordinates (("7,8").data) =
        some [1 * (digitsVal (['7']) : ℚ), 1 * (digitsVal (['8']) : ℚ), 0] := rfl
    rw [h3]
    norm_num [show digitsVal (['7']) = 7 from by decide,
      show digitsVal (['8']) = 8 from by decide]

/-- Witness for C6: the all-garbage text `abc` leaves non-whitespace
residue, so the parse is absent. -/
theorem readFlatCoordinates_spec_witness :
    ((readFlatCoordinatesLoop ((("abc").data).length + 1) (("abc").data) []).2.any
      (fun c => !jsIsSpace c)) = true ∧
    readFlatCoordinates (("abc").data) = none :=
  ⟨by decide, readFlatCoordinates_spec.1 (("abc").data) (by decide)⟩

end KMLSpec
